import Mathlib

/-!
# StackIt consistency engine — verification of the specification

Shallow embedding of the database schema, SQL trigger functions and client
operations of the StackIt Q&A forum (tables `questions`, `answers`, `votes`;
trigger functions `update_question_answer_count`, `update_vote_counts`,
`update_question_accepted_status`; client handlers `handleVote`,
`handleAcceptAnswer`), together with proofs and refutations of the
specification's claims about the vote/accept consistency engine.
-/

namespace Stackit

/-- SQL enum `vote_type`. -/
inductive VoteType where
  | upvote
  | downvote
deriving DecidableEq, Repr

/-- A row of `public.questions` (the columns the consistency engine touches).
Identifiers are opaque; we use `Nat`. Counters are SQL `INTEGER`, modelled
as `Int` (SQL integers are signed and the triggers may in principle drive
them below zero). -/
structure Question where
  id : Nat
  user_id : Nat
  upvote_count : Int
  downvote_count : Int
  answer_count : Int
  has_accepted_answer : Bool
deriving DecidableEq, Repr

/-- A row of `public.answers`. -/
structure Answer where
  id : Nat
  question_id : Nat
  user_id : Nat
  upvote_count : Int
  downvote_count : Int
  is_accepted : Bool
deriving DecidableEq, Repr

/-- A row of `public.votes`.  `question_id` and `answer_id` are nullable;
the CHECK constraint `vote_target_check` demands exactly one is set. -/
structure Vote where
  id : Nat
  user_id : Nat
  question_id : Option Nat
  answer_id : Option Nat
  vote_type : VoteType
deriving DecidableEq, Repr

/-- The mutable store: the three relations the consistency engine touches. -/
structure DB where
  questions : List Question
  answers : List Answer
  votes : List Vote
deriving DecidableEq, Repr

/-- `UPDATE public.questions SET … WHERE p`: apply `f` to every row
satisfying `p`, leave the others alone. -/
def updQ (db : DB) (p : Question → Bool) (f : Question → Question) : DB :=
  { db with questions := db.questions.map (fun q => if p q then f q else q) }

/-- `UPDATE public.answers SET … WHERE p`. -/
def updA (db : DB) (p : Answer → Bool) (f : Answer → Answer) : DB :=
  { db with answers := db.answers.map (fun a => if p a then f a else a) }

/-- `UPDATE public.votes SET … WHERE p`. -/
def updV (db : DB) (p : Vote → Bool) (f : Vote → Vote) : DB :=
  { db with votes := db.votes.map (fun v => if p v then f v else v) }

/-- The pair of statements
`IF vt = 'upvote' THEN UPDATE questions SET upvote_count = upvote_count + d WHERE id = qid
 ELSE UPDATE questions SET downvote_count = downvote_count + d WHERE id = qid`
(`d` is `+1` in the increment arms and `-1` in the decrement arms of
`update_vote_counts`). -/
def bumpQ (db : DB) (qid : Nat) (vt : VoteType) (d : Int) : DB :=
  if vt = .upvote then
    updQ db (fun q => q.id == qid) (fun q => { q with upvote_count := q.upvote_count + d })
  else
    updQ db (fun q => q.id == qid) (fun q => { q with downvote_count := q.downvote_count + d })

/-- Same for `public.answers`. -/
def bumpA (db : DB) (aid : Nat) (vt : VoteType) (d : Int) : DB :=
  if vt = .upvote then
    updA db (fun a => a.id == aid) (fun a => { a with upvote_count := a.upvote_count + d })
  else
    updA db (fun a => a.id == aid) (fun a => { a with downvote_count := a.downvote_count + d })

/-- Trigger function `update_vote_counts`, `TG_OP = 'INSERT'` arm
(`AFTER INSERT ON public.votes FOR EACH ROW`, row `NEW = new`):
`IF NEW.question_id IS NOT NULL THEN … ELSIF NEW.answer_id IS NOT NULL THEN …`. -/
def update_vote_counts_insert (db : DB) (new : Vote) : DB :=
  match new.question_id with
  | some qid => bumpQ db qid new.vote_type 1
  | none =>
    match new.answer_id with
    | some aid => bumpA db aid new.vote_type 1
    | none => db

/-- Trigger function `update_vote_counts`, `TG_OP = 'DELETE'` arm (row `OLD = old`). -/
def update_vote_counts_delete (db : DB) (old : Vote) : DB :=
  match old.question_id with
  | some qid => bumpQ db qid old.vote_type (-1)
  | none =>
    match old.answer_id with
    | some aid => bumpA db aid old.vote_type (-1)
    | none => db

/-- Trigger function `update_vote_counts`, `TG_OP = 'UPDATE'` arm.
The branch is selected by `OLD.question_id` / `OLD.answer_id`; the decrement
targets `OLD`'s row, the increment targets `NEW.question_id` (resp.
`NEW.answer_id`) — an `UPDATE … WHERE id = NEW.question_id` with a NULL
`NEW.question_id` matches no row, hence the inner `match`. -/
def update_vote_counts_update (db : DB) (old new : Vote) : DB :=
  match old.question_id with
  | some qid =>
    let db1 := bumpQ db qid old.vote_type (-1)
    match new.question_id with
    | some nqid => bumpQ db1 nqid new.vote_type 1
    | none => db1
  | none =>
    match old.answer_id with
    | some aid =>
      let db1 := bumpA db aid old.vote_type (-1)
      match new.answer_id with
      | some naid => bumpA db1 naid new.vote_type 1
      | none => db1
    | none => db

/-- Trigger function `update_question_answer_count`, `TG_OP = 'INSERT'` arm:
`UPDATE questions SET answer_count = answer_count + 1 WHERE id = NEW.question_id`. -/
def update_question_answer_count_insert (db : DB) (new : Answer) : DB :=
  updQ db (fun q => q.id == new.question_id)
    (fun q => { q with answer_count := q.answer_count + 1 })

/-- Trigger function `update_question_answer_count`, `TG_OP = 'DELETE'` arm. -/
def update_question_answer_count_delete (db : DB) (old : Answer) : DB :=
  updQ db (fun q => q.id == old.question_id)
    (fun q => { q with answer_count := q.answer_count - 1 })

/-- The unaccept arm of `update_question_accepted_status` for the row with id
`selfId` under question `qid`:
`IF NOT EXISTS (SELECT 1 FROM answers WHERE question_id = qid AND is_accepted = true
AND id != selfId) THEN UPDATE questions SET has_accepted_answer = false WHERE id = qid`. -/
def recheckAccepted (db : DB) (qid : Nat) (selfId : Nat) : DB :=
  if db.answers.any (fun a => a.question_id == qid && a.is_accepted && a.id != selfId) then
    db
  else
    updQ db (fun q => q.id == qid) (fun q => { q with has_accepted_answer := false })

/-- Trigger function `update_question_accepted_status`
(`AFTER UPDATE ON public.answers FOR EACH ROW`, rows `OLD = old`, `NEW = new`;
the table already holds the updated row when the trigger runs).
In the accept arm the sibling-clearing `UPDATE answers` itself fires this
trigger on every sibling it flips from accepted to unaccepted, which runs the
unaccept arm for that sibling (the `cleared.foldl`); each such re-check sees
the freshly accepted answer and leaves the question flag alone, after which
the question is marked as having an accepted answer. -/
def update_question_accepted_status (db : DB) (old new : Answer) : DB :=
  if old.is_accepted != new.is_accepted then
    if new.is_accepted then
      let cleared := db.answers.filter
        (fun a => a.question_id == new.question_id && a.id != new.id && a.is_accepted)
      let db1 := updA db (fun a => a.question_id == new.question_id && a.id != new.id)
        (fun a => { a with is_accepted := false })
      let db2 := cleared.foldl (fun d s => recheckAccepted d new.question_id s.id) db1
      updQ db2 (fun q => q.id == new.question_id)
        (fun q => { q with has_accepted_answer := true })
    else
      recheckAccepted db new.question_id new.id
  else db

/-- `INSERT INTO public.questions` (the `AskQuestion` page inserts title,
description, tags and owner; the aggregate columns take their defaults). -/
def createQuestion (db : DB) (q : Question) : DB :=
  { db with questions := db.questions ++ [q] }

/-- `INSERT INTO public.answers` followed by the `update_answer_count_on_insert`
trigger. -/
def createAnswer (db : DB) (a : Answer) : DB :=
  update_question_answer_count_insert { db with answers := db.answers ++ [a] } a

/-- Foreign-key `ON DELETE CASCADE` into `public.votes`: remove every vote
matched by `p`, then fire the `update_vote_counts` DELETE arm for each
removed row (the referenced target row is already gone when these fire, so
their counter updates match no row). -/
def cascadeDeleteVotes (db : DB) (p : Vote → Bool) : DB :=
  let removed := db.votes.filter p
  let db1 := { db with votes := db.votes.filter (fun v => !(p v)) }
  removed.foldl update_vote_counts_delete db1

/-- `DELETE FROM public.answers WHERE id = aid`: remove the row, cascade-delete
its votes, then fire the `update_answer_count_on_delete` trigger.  There is no
DELETE trigger on `answers` for accepted-answer maintenance
(`update_accepted_answer_trigger` is `AFTER UPDATE` only). -/
def deleteAnswer (db : DB) (aid : Nat) : DB :=
  match db.answers.find? (fun a => a.id == aid) with
  | none => db
  | some old =>
    let db1 := { db with answers := db.answers.filter (fun a => a.id != aid) }
    let db2 := cascadeDeleteVotes db1 (fun v => v.answer_id == some aid)
    update_question_answer_count_delete db2 old

/-- `DELETE FROM public.questions WHERE id = qid`: remove the row, cascade into
its answers and into the votes on the question and on those answers, firing
the per-row triggers (whose `UPDATE`s all target rows that no longer exist). -/
def deleteQuestion (db : DB) (qid : Nat) : DB :=
  match db.questions.find? (fun q => q.id == qid) with
  | none => db
  | some _ =>
    let removedAnswers := db.answers.filter (fun a => a.question_id == qid)
    let db1 := { db with questions := db.questions.filter (fun q => q.id != qid) }
    let db2 := { db1 with answers := db1.answers.filter (fun a => a.question_id != qid) }
    let db3 := cascadeDeleteVotes db2
      (fun v => v.question_id == some qid
        || removedAnswers.any (fun a => some a.id == v.answer_id))
    removedAnswers.foldl (fun d a => update_question_answer_count_delete d a) db3

/-- `UPDATE public.answers SET is_accepted = val WHERE id = aid` followed by the
`update_accepted_answer_trigger` for the updated row. -/
def updateAnswerAccepted (db : DB) (aid : Nat) (val : Bool) : DB :=
  match db.answers.find? (fun a => a.id == aid) with
  | none => db
  | some old =>
    let db1 := updA db (fun a => a.id == aid) (fun a => { a with is_accepted := val })
    update_question_accepted_status db1 old { old with is_accepted := val }

/-- `INSERT INTO public.votes` followed by the `update_vote_counts_trigger`
INSERT arm. -/
def insertVote (db : DB) (v : Vote) : DB :=
  update_vote_counts_insert { db with votes := db.votes ++ [v] } v

/-- `DELETE FROM public.votes WHERE id = vid` followed by the
`update_vote_counts_trigger` DELETE arm. -/
def deleteVote (db : DB) (vid : Nat) : DB :=
  match db.votes.find? (fun v => v.id == vid) with
  | none => db
  | some old =>
    update_vote_counts_delete { db with votes := db.votes.filter (fun v => v.id != vid) } old

/-- `UPDATE public.votes SET vote_type = t WHERE id = vid` followed by the
`update_vote_counts_trigger` UPDATE arm (it fires on every vote UPDATE,
whether or not the kind actually changed). -/
def updateVoteType (db : DB) (vid : Nat) (t : VoteType) : DB :=
  match db.votes.find? (fun v => v.id == vid) with
  | none => db
  | some old =>
    let db1 := updV db (fun v => v.id == vid) (fun v => { v with vote_type := t })
    update_vote_counts_update db1 old { old with vote_type := t }

/-- A vote target: a question or an answer (glossary "Target"). -/
inductive Target where
  | question (qid : Nat)
  | answer (aid : Nat)
deriving DecidableEq, Repr

/-- Does vote `v` belong to principal `p` on target `t`
(the client's `.eq('user_id', …).eq('answer_id' | 'question_id', …)` filter)? -/
def voteMatchesTarget (v : Vote) (p : Nat) (t : Target) : Bool :=
  v.user_id == p &&
    match t with
    | .question qid => v.question_id == some qid
    | .answer aid => v.answer_id == some aid

/-- Outcome of the client's `handleVote`. -/
inductive VoteResult where
  | removed
  | inserted
  | conflict
deriving DecidableEq, Repr

/-- `handleVote` from `QuestionDetail.tsx` (`createVote` of the spec).
If the principal's current vote on the target has the requested kind, the
client deletes it.  Otherwise it calls `upsert` WITHOUT a row id and without
an `onConflict` target: the generated fresh primary key never conflicts, so
the call is a plain insert, and when the principal already holds a vote of
the other kind on the target the `unique_question_vote` /
`unique_answer_vote` constraint rejects it — a uniqueness conflict error,
the row mutation and its triggers do not happen. -/
def handleVote (db : DB) (newId : Nat) (p : Nat) (t : Target) (k : VoteType) :
    DB × VoteResult :=
  match db.votes.find? (fun v => voteMatchesTarget v p t) with
  | some cur =>
    if cur.vote_type = k then
      (cascadeDeleteVotes db (fun v => voteMatchesTarget v p t), .removed)
    else
      (db, .conflict)
  | none =>
    let v : Vote :=
      { id := newId
        user_id := p
        question_id := match t with | .question qid => some qid | .answer _ => none
        answer_id := match t with | .answer aid => some aid | .question _ => none
        vote_type := k }
    (insertVote db v, .inserted)

/-- `handleAcceptAnswer` from `QuestionDetail.tsx` (`setAnswerAccepted(_, _, true)`
of the spec): the client silently returns unless the caller is the question's
owner; then it issues `UPDATE answers SET is_accepted = true WHERE id = answerId`,
which the row-level-security policy `Users can update their own answers`
(`USING auth.uid() = user_id`) restricts to rows authored by the caller.
Rows the policy filters out are skipped without any error. -/
def handleAcceptAnswer (db : DB) (caller : Nat) (qid : Nat) (answerId : Nat) : DB :=
  match db.questions.find? (fun q => q.id == qid) with
  | none => db
  | some q =>
    if caller != q.user_id then db
    else
      match db.answers.find? (fun a => a.id == answerId && a.user_id == caller) with
      | none => db
      | some old =>
        let db1 := updA db (fun a => a.id == answerId && a.user_id == caller)
          (fun a => { a with is_accepted := true })
        update_question_accepted_status db1 old { old with is_accepted := true }

/-! ## Counting live votes and well-formedness -/

/-- Number of live votes of kind `k` targeting question `qid`. -/
def qLive (db : DB) (qid : Nat) (k : VoteType) : Nat :=
  db.votes.countP (fun v => v.question_id == some qid && v.vote_type == k)

/-- Number of live votes of kind `k` targeting answer `aid`. -/
def aLive (db : DB) (aid : Nat) (k : VoteType) : Nat :=
  db.votes.countP (fun v => v.answer_id == some aid && v.vote_type == k)

/-- The counter of a question row for a given vote kind. -/
def qCnt (q : Question) (k : VoteType) : Int :=
  match k with
  | .upvote => q.upvote_count
  | .downvote => q.downvote_count

/-- The counter of an answer row for a given vote kind. -/
def aCnt (a : Answer) (k : VoteType) : Int :=
  match k with
  | .upvote => a.upvote_count
  | .downvote => a.downvote_count

/-- The stored denormalized vote counters agree with the live vote sets. -/
def countsConsistent (db : DB) : Prop :=
  (∀ q ∈ db.questions, ∀ k, qCnt q k = (qLive db q.id k : Int)) ∧
  (∀ a ∈ db.answers, ∀ k, aCnt a k = (aLive db a.id k : Int))

/-- At most one accepted answer per question. -/
def atMostOneAccepted (db : DB) : Prop :=
  ∀ qid : Nat, db.answers.countP (fun a => a.question_id == qid && a.is_accepted) ≤ 1

/-- Schema-level well-formedness: primary keys are unique, the
`vote_target_check` CHECK constraint holds, and the foreign keys
`votes.question_id → questions.id`, `votes.answer_id → answers.id` and
`answers.question_id → questions.id` resolve. -/
def wf (db : DB) : Prop :=
  (db.questions.map (fun q => q.id)).Nodup ∧
  (db.answers.map (fun a => a.id)).Nodup ∧
  (db.votes.map (fun v => v.id)).Nodup ∧
  (∀ v ∈ db.votes,
      (v.question_id.isSome && v.answer_id.isNone
        || v.question_id.isNone && v.answer_id.isSome) = true) ∧
  (∀ v ∈ db.votes, ∀ qid, v.question_id = some qid →
      ∃ q ∈ db.questions, q.id = qid) ∧
  (∀ v ∈ db.votes, ∀ aid, v.answer_id = some aid →
      ∃ a ∈ db.answers, a.id = aid) ∧
  (∀ a ∈ db.answers, ∃ q ∈ db.questions, q.id = a.question_id)

/-- The inductive invariant of the consistency engine. -/
def Inv (db : DB) : Prop :=
  wf db ∧ atMostOneAccepted db ∧ countsConsistent db

/-- One engine operation at the storage level: the row mutation together with
the triggers it fires.  Insertions carry the constraints the database
enforces on them (fresh primary key, foreign keys, `vote_target_check`,
the unique-vote constraints, and the column defaults the clients leave
untouched). -/
inductive Step : DB → DB → Prop where
  | newQuestion (db : DB) (q : Question)
      (hfresh : db.questions.all (fun r => r.id != q.id) = true)
      (hdef : q.upvote_count = 0 ∧ q.downvote_count = 0 ∧ q.answer_count = 0 ∧
        q.has_accepted_answer = false) :
      Step db (createQuestion db q)
  | newAnswer (db : DB) (a : Answer)
      (hfk : db.questions.any (fun q => q.id == a.question_id) = true)
      (hfresh : db.answers.all (fun r => r.id != a.id) = true)
      (hdef : a.upvote_count = 0 ∧ a.downvote_count = 0 ∧ a.is_accepted = false) :
      Step db (createAnswer db a)
  | delAnswer (db : DB) (aid : Nat) : Step db (deleteAnswer db aid)
  | delQuestion (db : DB) (qid : Nat) : Step db (deleteQuestion db qid)
  | setAccepted (db : DB) (aid : Nat) (val : Bool) :
      Step db (updateAnswerAccepted db aid val)
  | addVote (db : DB) (v : Vote)
      (hfresh : db.votes.all (fun r => r.id != v.id) = true)
      (htgt : (v.question_id.isSome && v.answer_id.isNone
        || v.question_id.isNone && v.answer_id.isSome) = true)
      (hfkq : ∀ qid, v.question_id = some qid →
        db.questions.any (fun q => q.id == qid) = true)
      (hfka : ∀ aid, v.answer_id = some aid →
        db.answers.any (fun a => a.id == aid) = true)
      (huniq : db.votes.all (fun w => !(w.user_id == v.user_id &&
        ((w.question_id == v.question_id && v.question_id.isSome)
          || (w.answer_id == v.answer_id && v.answer_id.isSome)))) = true) :
      Step db (insertVote db v)
  | delVote (db : DB) (vid : Nat) : Step db (deleteVote db vid)
  | changeVote (db : DB) (vid : Nat) (t : VoteType) :
      Step db (updateVoteType db vid t)

/-- The empty store. -/
def emptyDB : DB := { questions := [], answers := [], votes := [] }

/-- States reachable from the empty store by engine operations. -/
def Reachable (db : DB) : Prop :=
  Relation.ReflTransGen Step emptyDB db

/-! ## Generic list lemmas -/

theorem find?_map_pres {α : Type} (f : α → α) (p : α → Bool)
    (hf : ∀ x, p (f x) = p x) :
    ∀ l : List α, (l.map f).find? p = (l.find? p).map f
  | [] => rfl
  | a :: l => by
    cases h : p a with
    | true =>
      rw [List.map_cons, List.find?_cons_of_pos _ (by rw [hf a]; exact h),
        List.find?_cons_of_pos _ h, Option.map_some']
    | false =>
      rw [List.map_cons, List.find?_cons_of_neg _ (by rw [hf a]; simp [h]),
        List.find?_cons_of_neg _ (by simp [h]), find?_map_pres f p hf l]

theorem map_if_id {α : Type} (p : α → Bool) (f : α → α) :
    ∀ l : List α, (∀ x ∈ l, p x = false) →
      (l.map fun x => if p x then f x else x) = l
  | [], _ => rfl
  | a :: l, h => by
    rw [List.map_cons, if_neg (by simp [h a (List.mem_cons_self a l)]),
      map_if_id p f l (fun x hx => h x (List.mem_cons_of_mem a hx))]

theorem countP_map_congr {α : Type} (f : α → α) (p : α → Bool) (l : List α)
    (h : ∀ x ∈ l, p (f x) = p x) : (l.map f).countP p = l.countP p := by
  rw [List.countP_map]
  exact List.countP_congr (fun x hx => by
    rw [Function.comp_apply, h x hx])

theorem nodup_key_inj {α : Type} (key : α → Nat) :
    ∀ l : List α, (l.map key).Nodup → ∀ a ∈ l, ∀ b ∈ l, key a = key b → a = b
  | [], _, a, ha, _, _, _ => absurd ha (List.not_mem_nil a)
  | x :: l, hnd, a, ha, b, hb, hab => by
    rw [List.map_cons, List.nodup_cons] at hnd
    rcases List.mem_cons.mp ha with ha1 | ha2
    · rcases List.mem_cons.mp hb with hb1 | hb2
      · rw [ha1, hb1]
      · exfalso
        apply hnd.1
        rw [← ha1, hab]
        exact List.mem_map_of_mem key hb2
    · rcases List.mem_cons.mp hb with hb1 | hb2
      · exfalso
        apply hnd.1
        rw [← hb1, ← hab]
        exact List.mem_map_of_mem key ha2
      · exact nodup_key_inj key l hnd.2 a ha2 b hb2 hab

theorem find?_key_of_nodup {α : Type} (key : α → Nat) :
    ∀ l : List α, (l.map key).Nodup → ∀ a ∈ l,
      l.find? (fun x => key x == key a) = some a
  | [], _, a, ha => absurd ha (List.not_mem_nil a)
  | x :: l, hnd, a, ha => by
    rw [List.map_cons, List.nodup_cons] at hnd
    rcases List.mem_cons.mp ha with ha1 | ha2
    · rw [ha1]
      exact List.find?_cons_of_pos _ (by simp)
    · have hne : key x ≠ key a := fun h =>
        hnd.1 (h ▸ List.mem_map_of_mem key ha2)
      rw [List.find?_cons_of_neg _ (by simp [hne]), find?_key_of_nodup key l hnd.2 a ha2]

theorem countP_filter_ne_key {α : Type} (key : α → Nat) (p : α → Bool) :
    ∀ l : List α, (l.map key).Nodup → ∀ a ∈ l,
      l.countP p
        = (l.filter fun x => key x != key a).countP p + (if p a then 1 else 0)
  | [], _, a, ha => absurd ha (List.not_mem_nil a)
  | x :: l, hnd, a, ha => by
    rw [List.map_cons, List.nodup_cons] at hnd
    rcases List.mem_cons.mp ha with ha1 | ha2
    · have hfl : (l.filter fun y => key y != key a) = l :=
        List.filter_eq_self.mpr (fun y hy => by
          simp only [bne_iff_ne, ne_eq]
          intro h
          apply hnd.1
          rw [← ha1, ← h]
          exact List.mem_map_of_mem key hy)
      rw [List.filter_cons_of_neg (by simp [ha1]), hfl, List.countP_cons, ha1, Nat.add_comm]
    · have hne : key x ≠ key a := fun h =>
        hnd.1 (h ▸ List.mem_map_of_mem key ha2)
      rw [List.filter_cons_of_pos (by simp [hne]), List.countP_cons, List.countP_cons,
        countP_filter_ne_key key p l hnd.2 a ha2, Nat.add_right_comm]

theorem countP_map_update_key {α : Type} (key : α → Nat) (p : α → Bool) (f : α → α) :
    ∀ l : List α, (l.map key).Nodup → ∀ a ∈ l,
      (l.map fun x => if key x == key a then f x else x).countP p
          + (if p a then 1 else 0)
        = l.countP p + (if p (f a) then 1 else 0)
  | [], _, a, ha => absurd ha (List.not_mem_nil a)
  | x :: l, hnd, a, ha => by
    rw [List.map_cons, List.nodup_cons] at hnd
    rcases List.mem_cons.mp ha with ha1 | ha2
    · have htl : (l.map fun y => if key y == key a then f y else y) = l :=
        map_if_id _ f l (fun y hy => by
          simp only [beq_eq_false_iff_ne, ne_eq]
          intro h
          apply hnd.1
          rw [← ha1, ← h]
          exact List.mem_map_of_mem key hy)
      have hx : (key x == key a) = true := by rw [ha1]; exact beq_self_eq_true _
      rw [List.map_cons]
      simp only [hx, if_true, List.countP_cons, htl]
      rw [ha1]
      omega
    · have hne : key x ≠ key a := fun h =>
        hnd.1 (h ▸ List.mem_map_of_mem key ha2)
      have hx : (key x == key a) = false := by simp [hne]
      rw [List.map_cons]
      simp only [hx, Bool.false_eq_true, if_false, List.countP_cons]
      have := countP_map_update_key key p f l hnd.2 a ha2
      omega

theorem map_key_pres {α : Type} (key : α → Nat) (f : α → α)
    (hf : ∀ x, key (f x) = key x) (l : List α) :
    (l.map f).map key = l.map key := by
  rw [List.map_map]
  exact List.map_congr_left (fun x _ => hf x)

theorem exists_key_map {α : Type} (key : α → Nat) (f : α → α)
    (hf : ∀ x, key (f x) = key x) (l : List α) (k : Nat)
    (h : ∃ x ∈ l, key x = k) : ∃ x ∈ l.map f, key x = k := by
  obtain ⟨x, hx, hk⟩ := h
  exact ⟨f x, List.mem_map_of_mem f hx, by rw [hf x, hk]⟩

/-! ## Frame lemmas: which fields an operation can touch -/

/-- A question-row transformer that can only move the vote counters. -/
def QPres (f : Question → Question) : Prop :=
  ∀ q, (f q).id = q.id ∧ (f q).user_id = q.user_id ∧
    (f q).answer_count = q.answer_count ∧
    (f q).has_accepted_answer = q.has_accepted_answer

/-- An answer-row transformer that can only move the vote counters. -/
def APres (g : Answer → Answer) : Prop :=
  ∀ a, (g a).id = a.id ∧ (g a).question_id = a.question_id ∧
    (g a).user_id = a.user_id ∧ (g a).is_accepted = a.is_accepted

/-- `db'` differs from `db` only in vote counters of questions and answers:
the vote set is untouched and each row is transformed keeping everything but
its `upvote_count`/`downvote_count`. -/
def CounterFrame (db db' : DB) : Prop :=
  db'.votes = db.votes ∧
  (∃ f, QPres f ∧ db'.questions = db.questions.map f) ∧
  (∃ g, APres g ∧ db'.answers = db.answers.map g)

theorem CounterFrame.refl (db : DB) : CounterFrame db db :=
  ⟨rfl, ⟨id, fun _ => ⟨rfl, rfl, rfl, rfl⟩, (List.map_id _).symm⟩,
    ⟨id, fun _ => ⟨rfl, rfl, rfl, rfl⟩, (List.map_id _).symm⟩⟩

theorem CounterFrame.trans {db1 db2 db3 : DB}
    (h12 : CounterFrame db1 db2) (h23 : CounterFrame db2 db3) :
    CounterFrame db1 db3 := by
  obtain ⟨hv12, ⟨f1, hf1, hq12⟩, ⟨g1, hg1, ha12⟩⟩ := h12
  obtain ⟨hv23, ⟨f2, hf2, hq23⟩, ⟨g2, hg2, ha23⟩⟩ := h23
  refine ⟨hv23.trans hv12, ⟨f2 ∘ f1, ?_, ?_⟩, ⟨g2 ∘ g1, ?_, ?_⟩⟩
  · intro q
    obtain ⟨h1, h2, h3, h4⟩ := hf1 q
    obtain ⟨k1, k2, k3, k4⟩ := hf2 (f1 q)
    exact ⟨k1.trans h1, k2.trans h2, k3.trans h3, k4.trans h4⟩
  · rw [hq23, hq12, List.map_map]
  · intro a
    obtain ⟨h1, h2, h3, h4⟩ := hg1 a
    obtain ⟨k1, k2, k3, k4⟩ := hg2 (g1 a)
    exact ⟨k1.trans h1, k2.trans h2, k3.trans h3, k4.trans h4⟩
  · rw [ha23, ha12, List.map_map]

theorem counterFrame_updQ (db : DB) (p : Question → Bool) (f : Question → Question)
    (hf : QPres (fun q => if p q then f q else q)) :
    CounterFrame db (updQ db p f) :=
  ⟨rfl, ⟨_, hf, rfl⟩,
    ⟨id, fun _ => ⟨rfl, rfl, rfl, rfl⟩, (List.map_id _).symm⟩⟩

theorem counterFrame_updA (db : DB) (p : Answer → Bool) (g : Answer → Answer)
    (hg : APres (fun a => if p a then g a else a)) :
    CounterFrame db (updA db p g) :=
  ⟨rfl, ⟨id, fun _ => ⟨rfl, rfl, rfl, rfl⟩, (List.map_id _).symm⟩, ⟨_, hg, rfl⟩⟩

theorem counterFrame_bumpQ (db : DB) (qid : Nat) (vt : VoteType) (d : Int) :
    CounterFrame db (bumpQ db qid vt d) := by
  unfold bumpQ
  split
  · exact counterFrame_updQ db _ _
      (fun q => by by_cases h : (q.id == qid) = true <;> simp [h])
  · exact counterFrame_updQ db _ _
      (fun q => by by_cases h : (q.id == qid) = true <;> simp [h])

theorem counterFrame_bumpA (db : DB) (aid : Nat) (vt : VoteType) (d : Int) :
    CounterFrame db (bumpA db aid vt d) := by
  unfold bumpA
  split
  · exact counterFrame_updA db _ _
      (fun a => by by_cases h : (a.id == aid) = true <;> simp [h])
  · exact counterFrame_updA db _ _
      (fun a => by by_cases h : (a.id == aid) = true <;> simp [h])

theorem counterFrame_uvc_insert (db : DB) (v : Vote) :
    CounterFrame db (update_vote_counts_insert db v) := by
  unfold update_vote_counts_insert
  cases v.question_id with
  | some qid => exact counterFrame_bumpQ db qid v.vote_type 1
  | none =>
    cases v.answer_id with
    | some aid => exact counterFrame_bumpA db aid v.vote_type 1
    | none => exact CounterFrame.refl db

theorem counterFrame_uvc_delete (db : DB) (v : Vote) :
    CounterFrame db (update_vote_counts_delete db v) := by
  unfold update_vote_counts_delete
  cases v.question_id with
  | some qid => exact counterFrame_bumpQ db qid v.vote_type (-1)
  | none =>
    cases v.answer_id with
    | some aid => exact counterFrame_bumpA db aid v.vote_type (-1)
    | none => exact CounterFrame.refl db

theorem counterFrame_uvc_update (db : DB) (old new : Vote) :
    CounterFrame db (update_vote_counts_update db old new) := by
  unfold update_vote_counts_update
  cases old.question_id with
  | some qid =>
    cases new.question_id with
    | some nqid =>
      exact (counterFrame_bumpQ db qid old.vote_type (-1)).trans
        (counterFrame_bumpQ _ nqid new.vote_type 1)
    | none => exact counterFrame_bumpQ db qid old.vote_type (-1)
  | none =>
    cases old.answer_id with
    | some aid =>
      cases new.answer_id with
      | some naid =>
        exact (counterFrame_bumpA db aid old.vote_type (-1)).trans
          (counterFrame_bumpA _ naid new.vote_type 1)
      | none => exact counterFrame_bumpA db aid old.vote_type (-1)
    | none => exact CounterFrame.refl db

theorem counterFrame_foldl_uvc_delete (db : DB) (l : List Vote) :
    CounterFrame db (l.foldl update_vote_counts_delete db) := by
  induction l generalizing db with
  | nil => exact CounterFrame.refl db
  | cons v l ih =>
    exact (counterFrame_uvc_delete db v).trans (ih (update_vote_counts_delete db v))

/-- `cascadeDeleteVotes` removes exactly the votes matched by `p` and, beyond
that, moves nothing but vote counters. -/
theorem cascade_frame (db : DB) (p : Vote → Bool) :
    CounterFrame { db with votes := db.votes.filter (fun v => !(p v)) }
      (cascadeDeleteVotes db p) :=
  counterFrame_foldl_uvc_delete _ _


/-- A question-row transformer that can only move `has_accepted_answer`. -/
def QPresAcc (f : Question → Question) : Prop :=
  ∀ q, (f q).id = q.id ∧ (f q).user_id = q.user_id ∧
    (f q).upvote_count = q.upvote_count ∧ (f q).downvote_count = q.downvote_count ∧
    (f q).answer_count = q.answer_count

/-- An answer-row transformer that can only move `is_accepted`. -/
def APresAcc (g : Answer → Answer) : Prop :=
  ∀ a, (g a).id = a.id ∧ (g a).question_id = a.question_id ∧
    (g a).user_id = a.user_id ∧
    (g a).upvote_count = a.upvote_count ∧ (g a).downvote_count = a.downvote_count

/-- `db'` differs from `db` only in `is_accepted` flags of answers and
`has_accepted_answer` flags of questions. -/
def AcceptFrame (db db' : DB) : Prop :=
  db'.votes = db.votes ∧
  (∃ f, QPresAcc f ∧ db'.questions = db.questions.map f) ∧
  (∃ g, APresAcc g ∧ db'.answers = db.answers.map g)

theorem AcceptFrame.arefl (db : DB) : AcceptFrame db db :=
  ⟨rfl, ⟨id, fun _ => ⟨rfl, rfl, rfl, rfl, rfl⟩, (List.map_id _).symm⟩,
    ⟨id, fun _ => ⟨rfl, rfl, rfl, rfl, rfl⟩, (List.map_id _).symm⟩⟩

theorem AcceptFrame.atrans {db1 db2 db3 : DB}
    (h12 : AcceptFrame db1 db2) (h23 : AcceptFrame db2 db3) :
    AcceptFrame db1 db3 := by
  obtain ⟨hv12, ⟨f1, hf1, hq12⟩, ⟨g1, hg1, ha12⟩⟩ := h12
  obtain ⟨hv23, ⟨f2, hf2, hq23⟩, ⟨g2, hg2, ha23⟩⟩ := h23
  refine ⟨hv23.trans hv12, ⟨f2 ∘ f1, ?_, ?_⟩, ⟨g2 ∘ g1, ?_, ?_⟩⟩
  · intro q
    obtain ⟨h1, h2, h3, h4, h5⟩ := hf1 q
    obtain ⟨k1, k2, k3, k4, k5⟩ := hf2 (f1 q)
    exact ⟨k1.trans h1, k2.trans h2, k3.trans h3, k4.trans h4, k5.trans h5⟩
  · rw [hq23, hq12, List.map_map]
  · intro a
    obtain ⟨h1, h2, h3, h4, h5⟩ := hg1 a
    obtain ⟨k1, k2, k3, k4, k5⟩ := hg2 (g1 a)
    exact ⟨k1.trans h1, k2.trans h2, k3.trans h3, k4.trans h4, k5.trans h5⟩
  · rw [ha23, ha12, List.map_map]

theorem acceptFrame_flag (db : DB) (p : Question → Bool) (b : Bool) :
    AcceptFrame db (updQ db p (fun q => { q with has_accepted_answer := b })) :=
  ⟨rfl,
    ⟨_, fun q => by by_cases h : p q = true <;> simp [h], rfl⟩,
    ⟨id, fun _ => ⟨rfl, rfl, rfl, rfl, rfl⟩, (List.map_id _).symm⟩⟩

theorem acceptFrame_acc (db : DB) (p : Answer → Bool) (b : Bool) :
    AcceptFrame db (updA db p (fun a => { a with is_accepted := b })) :=
  ⟨rfl,
    ⟨id, fun _ => ⟨rfl, rfl, rfl, rfl, rfl⟩, (List.map_id _).symm⟩,
    ⟨_, fun a => by by_cases h : p a = true <;> simp [h], rfl⟩⟩

theorem acceptFrame_recheck (db : DB) (qid selfId : Nat) :
    AcceptFrame db (recheckAccepted db qid selfId) := by
  unfold recheckAccepted
  split
  · exact AcceptFrame.arefl db
  · exact acceptFrame_flag db _ false

theorem acceptFrame_foldl_recheck (qid : Nat) (l : List Answer) :
    ∀ db : DB, AcceptFrame db (l.foldl (fun d s => recheckAccepted d qid s.id) db) := by
  induction l with
  | nil => exact fun db => AcceptFrame.arefl db
  | cons a l ih =>
    intro db
    exact (acceptFrame_recheck db qid a.id).atrans (ih _)

theorem acceptFrame_uqas (db : DB) (old new : Answer) :
    AcceptFrame db (update_question_accepted_status db old new) := by
  unfold update_question_accepted_status
  split
  · split
    · exact ((acceptFrame_acc db _ false).atrans
        (acceptFrame_foldl_recheck _ _ _)).atrans (acceptFrame_flag _ _ true)
    · exact acceptFrame_recheck db _ _
  · exact AcceptFrame.arefl db

theorem acceptFrame_updateAnswerAccepted (db : DB) (aid : Nat) (val : Bool) :
    AcceptFrame db (updateAnswerAccepted db aid val) := by
  unfold updateAnswerAccepted
  cases h : db.answers.find? (fun a => a.id == aid) with
  | none => exact AcceptFrame.arefl db
  | some old =>
    exact (acceptFrame_acc db _ val).atrans (acceptFrame_uqas _ old _)

/-! ## Invariant transfer along frames -/

/-- `wf` transfers along any shape that keeps every row's key fields. -/
theorem wf_transfer (db db' : DB)
    (hv : ∃ h, (∀ v, (h v).id = v.id ∧ (h v).question_id = v.question_id ∧
        (h v).answer_id = v.answer_id) ∧ db'.votes = db.votes.map h)
    (hq : ∃ f, (∀ q, (f q).id = q.id) ∧ db'.questions = db.questions.map f)
    (ha : ∃ g, (∀ a, (g a).id = a.id ∧ (g a).question_id = a.question_id) ∧
        db'.answers = db.answers.map g)
    (h : wf db) : wf db' := by
  obtain ⟨hvv, hvp, hvl⟩ := hv
  obtain ⟨f, hfp, hfl⟩ := hq
  obtain ⟨g, hgp, hgl⟩ := ha
  obtain ⟨h1, h2, h3, h4, h5, h6, h7⟩ := h
  refine ⟨?_, ?_, ?_, ?_, ?_, ?_, ?_⟩
  · rw [hfl, map_key_pres _ f hfp]
    exact h1
  · rw [hgl, map_key_pres _ g (fun a => (hgp a).1)]
    exact h2
  · rw [hvl, map_key_pres _ hvv (fun v => (hvp v).1)]
    exact h3
  · intro v hv
    rw [hvl] at hv
    obtain ⟨w, hw, rfl⟩ := List.mem_map.mp hv
    rw [(hvp w).2.1, (hvp w).2.2]
    exact h4 w hw
  · intro v hv qid hq
    rw [hvl] at hv
    obtain ⟨w, hw, rfl⟩ := List.mem_map.mp hv
    rw [(hvp w).2.1] at hq
    rw [hfl]
    exact exists_key_map _ f hfp _ _ (h5 w hw qid hq)
  · intro v hv aid hq
    rw [hvl] at hv
    obtain ⟨w, hw, rfl⟩ := List.mem_map.mp hv
    rw [(hvp w).2.2] at hq
    rw [hgl]
    exact exists_key_map _ g (fun a => (hgp a).1) _ _ (h6 w hw aid hq)
  · intro a ha
    rw [hgl] at ha
    obtain ⟨b, hb, rfl⟩ := List.mem_map.mp ha
    rw [(hgp b).2]
    rw [hfl]
    exact exists_key_map _ f hfp _ _ (h7 b hb)

/-- `atMostOneAccepted` transfers along any shape that keeps each answer's
`question_id` and `is_accepted`. -/
theorem acc_transfer (db db' : DB)
    (ha : ∃ g, (∀ a, (g a).question_id = a.question_id ∧
        (g a).is_accepted = a.is_accepted) ∧ db'.answers = db.answers.map g)
    (h : atMostOneAccepted db) : atMostOneAccepted db' := by
  obtain ⟨g, hgp, hgl⟩ := ha
  intro qid
  rw [hgl, countP_map_congr g _ _ (fun a _ => by rw [(hgp a).1, (hgp a).2])]
  exact h qid

/-- `countsConsistent` transfers along any shape that keeps the vote set and
each row's id and vote counters. -/
theorem counts_transfer (db db' : DB)
    (hv : db'.votes = db.votes)
    (hq : ∃ f, (∀ q, (f q).id = q.id ∧ (f q).upvote_count = q.upvote_count ∧
        (f q).downvote_count = q.downvote_count) ∧ db'.questions = db.questions.map f)
    (ha : ∃ g, (∀ a, (g a).id = a.id ∧ (g a).upvote_count = a.upvote_count ∧
        (g a).downvote_count = a.downvote_count) ∧ db'.answers = db.answers.map g)
    (h : countsConsistent db) : countsConsistent db' := by
  obtain ⟨f, hfp, hfl⟩ := hq
  obtain ⟨g, hgp, hgl⟩ := ha
  constructor
  · intro q hq
    rw [hfl] at hq
    obtain ⟨r, hr, rfl⟩ := List.mem_map.mp hq
    intro k
    have hl : qLive db' (f r).id k = qLive db r.id k := by
      unfold qLive
      rw [hv, (hfp r).1]
    have hc : qCnt (f r) k = qCnt r k := by
      cases k with
      | upvote => exact (hfp r).2.1
      | downvote => exact (hfp r).2.2
    rw [hc, hl]
    exact h.1 r hr k
  · intro a ha
    rw [hgl] at ha
    obtain ⟨b, hb, rfl⟩ := List.mem_map.mp ha
    intro k
    have hl : aLive db' (g b).id k = aLive db b.id k := by
      unfold aLive
      rw [hv, (hgp b).1]
    have hc : aCnt (g b) k = aCnt b k := by
      cases k with
      | upvote => exact (hgp b).2.1
      | downvote => exact (hgp b).2.2
    rw [hc, hl]
    exact h.2 b hb k

/-! ## Small component and no-op lemmas -/

theorem updQ_answers (db : DB) (p : Question → Bool) (f : Question → Question) :
    (updQ db p f).answers = db.answers := rfl

theorem updQ_votes (db : DB) (p : Question → Bool) (f : Question → Question) :
    (updQ db p f).votes = db.votes := rfl

theorem updA_answers (db : DB) (p : Answer → Bool) (f : Answer → Answer) :
    (updA db p f).answers = db.answers.map (fun a => if p a then f a else a) := rfl

theorem updQ_id (db : DB) (p : Question → Bool) (f : Question → Question)
    (h : ∀ q ∈ db.questions, p q = false) : updQ db p f = db := by
  unfold updQ
  rw [map_if_id p f db.questions h]

theorem updA_id (db : DB) (p : Answer → Bool) (f : Answer → Answer)
    (h : ∀ a ∈ db.answers, p a = false) : updA db p f = db := by
  unfold updA
  rw [map_if_id p f db.answers h]

theorem bumpQ_id (db : DB) (qid : Nat) (vt : VoteType) (d : Int)
    (h : ∀ q ∈ db.questions, (q.id == qid) = false) : bumpQ db qid vt d = db := by
  unfold bumpQ
  split <;> exact updQ_id db _ _ h

theorem bumpA_id (db : DB) (aid : Nat) (vt : VoteType) (d : Int)
    (h : ∀ a ∈ db.answers, (a.id == aid) = false) : bumpA db aid vt d = db := by
  unfold bumpA
  split <;> exact updA_id db _ _ h

/-- The vote-deletion trigger is a no-op when the vote targets rows that are
no longer present (the cascade situation). -/
theorem uvcd_id (d : DB) (v : Vote)
    (hq : ∀ qid, v.question_id = some qid → ∀ q ∈ d.questions, (q.id == qid) = false)
    (ha : ∀ aid, v.question_id = none → v.answer_id = some aid →
      ∀ a ∈ d.answers, (a.id == aid) = false) :
    update_vote_counts_delete d v = d := by
  unfold update_vote_counts_delete
  cases hvq : v.question_id with
  | some qid => exact bumpQ_id d qid v.vote_type (-1) (hq qid hvq)
  | none =>
    cases hva : v.answer_id with
    | some aid => exact bumpA_id d aid v.vote_type (-1) (ha aid hvq hva)
    | none => rfl

theorem foldl_uvcd_id (d : DB) (l : List Vote)
    (h : ∀ v ∈ l, update_vote_counts_delete d v = d) :
    l.foldl update_vote_counts_delete d = d := by
  induction l with
  | nil => rfl
  | cons v l ih =>
    rw [List.foldl_cons, h v (List.mem_cons_self v l)]
    exact ih (fun w hw => h w (List.mem_cons_of_mem v hw))

theorem recheckAccepted_answers (d : DB) (qid selfId : Nat) :
    (recheckAccepted d qid selfId).answers = d.answers := by
  unfold recheckAccepted
  split <;> rfl

theorem foldl_recheck_answers (qid : Nat) (l : List Answer) :
    ∀ d : DB, (l.foldl (fun d s => recheckAccepted d qid s.id) d).answers = d.answers := by
  induction l with
  | nil => exact fun _ => rfl
  | cons a l ih =>
    intro d
    rw [List.foldl_cons, ih, recheckAccepted_answers]

/-- The answer list after the accepted-status trigger: in the accept arm the
siblings are cleared, otherwise the answers are untouched. -/
theorem uqas_answers (db : DB) (old new : Answer) :
    (update_question_accepted_status db old new).answers
      = if (old.is_accepted != new.is_accepted) && new.is_accepted then
          db.answers.map (fun a =>
            if a.question_id == new.question_id && a.id != new.id then
              { a with is_accepted := false } else a)
        else db.answers := by
  unfold update_question_accepted_status
  by_cases h1 : (old.is_accepted != new.is_accepted) = true
  · rw [if_pos h1]
    by_cases h2 : new.is_accepted = true
    · rw [if_pos h2,
        if_pos (show ((old.is_accepted != new.is_accepted) && new.is_accepted) = true by
          rw [h1, h2]; rfl)]
      rw [updQ_answers, foldl_recheck_answers, updA_answers]
    · rw [if_neg h2,
        if_neg (show ¬((old.is_accepted != new.is_accepted) && new.is_accepted) = true by
          intro hcon
          exact h2 (Bool.and_elim_right hcon))]
      exact recheckAccepted_answers db _ _
  · rw [if_neg h1,
      if_neg (show ¬((old.is_accepted != new.is_accepted) && new.is_accepted) = true by
        intro hcon
        exact h1 (Bool.and_elim_left hcon))]

theorem nodup_append_singleton {α : Type} (l : List α) (x : α)
    (h : l.Nodup) (hx : x ∉ l) : (l ++ [x]).Nodup := by
  rw [List.nodup_append]
  refine ⟨h, List.nodup_singleton x, ?_⟩
  intro a ha hax
  rw [List.mem_singleton] at hax
  exact hx (hax ▸ ha)

theorem countP_key_le_one {α : Type} (key : α → Nat) (l : List α)
    (h : (l.map key).Nodup) (k : Nat) : l.countP (fun x => key x == k) ≤ 1 := by
  have he : l.countP (fun x => key x == k) = (l.map key).count k := by
    rw [List.count_eq_countP, List.countP_map]
    rfl
  rw [he]
  exact List.nodup_iff_count_le_one.mp h k

theorem countP_filter_sub {α : Type} (p keep : α → Bool) (l : List α)
    (h : ∀ x ∈ l, p x = true → keep x = true) :
    (l.filter keep).countP p = l.countP p := by
  rw [List.countP_filter]
  exact List.countP_congr (fun x hx => by
    cases hp : p x
    · simp
    · simp [hp, h x hx hp])

/-! ## Glue: frames entail invariant transfer -/

theorem CounterFrame.to_wf {db db' : DB} (h : CounterFrame db db') (hw : wf db) :
    wf db' := by
  obtain ⟨hv, ⟨f, hf, hq⟩, ⟨g, hg, ha⟩⟩ := h
  exact wf_transfer db db'
    ⟨id, fun _ => ⟨rfl, rfl, rfl⟩, by rw [List.map_id]; exact hv⟩
    ⟨f, fun q => (hf q).1, hq⟩
    ⟨g, fun a => ⟨(hg a).1, (hg a).2.1⟩, ha⟩ hw

theorem CounterFrame.to_acc {db db' : DB} (h : CounterFrame db db')
    (ha : atMostOneAccepted db) : atMostOneAccepted db' := by
  obtain ⟨_, _, ⟨g, hg, hal⟩⟩ := h
  exact acc_transfer db db' ⟨g, fun a => ⟨(hg a).2.1, (hg a).2.2.2⟩, hal⟩ ha

theorem AcceptFrame.wf_of {db db' : DB} (h : AcceptFrame db db') (hw : wf db) :
    wf db' := by
  obtain ⟨hv, ⟨f, hf, hq⟩, ⟨g, hg, ha⟩⟩ := h
  exact wf_transfer db db'
    ⟨id, fun _ => ⟨rfl, rfl, rfl⟩, by rw [List.map_id]; exact hv⟩
    ⟨f, fun q => (hf q).1, hq⟩
    ⟨g, fun a => ⟨(hg a).1, (hg a).2.1⟩, ha⟩ hw

theorem AcceptFrame.to_counts {db db' : DB} (h : AcceptFrame db db')
    (hc : countsConsistent db) : countsConsistent db' := by
  obtain ⟨hv, ⟨f, hf, hq⟩, ⟨g, hg, ha⟩⟩ := h
  exact counts_transfer db db' hv
    ⟨f, fun q => ⟨(hf q).1, (hf q).2.2.1, (hf q).2.2.2.1⟩, hq⟩
    ⟨g, fun a => ⟨(hg a).1, (hg a).2.2.2.1, (hg a).2.2.2.2⟩, ha⟩ hc

/-! ## Invariant preservation: `updateAnswerAccepted` -/

theorem wf_setAccepted (db : DB) (aid : Nat) (val : Bool) (h : wf db) :
    wf (updateAnswerAccepted db aid val) :=
  (acceptFrame_updateAnswerAccepted db aid val).wf_of h

theorem counts_setAccepted (db : DB) (aid : Nat) (val : Bool)
    (h : countsConsistent db) : countsConsistent (updateAnswerAccepted db aid val) :=
  (acceptFrame_updateAnswerAccepted db aid val).to_counts h

theorem countP_congr_eq {α : Type} (p q : α → Bool) (l : List α)
    (h : ∀ x ∈ l, p x = q x) : l.countP p = l.countP q :=
  List.countP_congr (fun x hx => by rw [h x hx])

/-- The answer list after `updateAnswerAccepted`, in reduced form. -/
theorem updateAnswerAccepted_answers (db : DB) (aid : Nat) (val : Bool) (old : Answer)
    (hf : db.answers.find? (fun a => a.id == aid) = some old) :
    (updateAnswerAccepted db aid val).answers
      = if (old.is_accepted != val) && val then
          (db.answers.map (fun a =>
            if a.id == aid then { a with is_accepted := val } else a)).map (fun a =>
              if a.question_id == old.question_id && a.id != old.id then
                { a with is_accepted := false } else a)
        else
          db.answers.map (fun a => if a.id == aid then { a with is_accepted := val } else a) := by
  unfold updateAnswerAccepted
  rw [hf]
  rw [uqas_answers, updA_answers]

theorem acc_setAccepted (db : DB) (aid : Nat) (val : Bool)
    (hwf : wf db) (h : atMostOneAccepted db) :
    atMostOneAccepted (updateAnswerAccepted db aid val) := by
  cases hf : db.answers.find? (fun a => a.id == aid) with
  | none =>
    unfold updateAnswerAccepted
    rw [hf]
    exact h
  | some old =>
    have hmem : old ∈ db.answers := List.mem_of_find?_eq_some hf
    have hid : old.id = aid := by simpa using List.find?_some hf
    have hnd : (db.answers.map (fun a => a.id)).Nodup := hwf.2.1
    intro qid
    rw [updateAnswerAccepted_answers db aid val old hf]
    by_cases harm : ((old.is_accepted != val) && val) = true
    · rw [if_pos harm, List.map_map, List.countP_map]
      by_cases hq : qid = old.question_id
      · subst hq
        refine le_trans (List.countP_mono_left (fun a ha hpa => ?_))
          (countP_key_le_one (fun a => a.id) db.answers hnd aid)
        simp only [Function.comp_apply] at hpa
        cases h1 : (a.id == aid) with
        | true => rfl
        | false =>
          exfalso
          cases hqa : (a.question_id == old.question_id) with
          | true =>
            have hne : (a.id != old.id) = true := by
              rw [hid]
              simp only [bne_iff_ne, ne_eq]
              simp only [beq_eq_false_iff_ne, ne_eq] at h1
              exact h1
            simp [h1, hqa, hne] at hpa
          | false =>
            simp [h1, hqa] at hpa
      · have hpres : ∀ a ∈ db.answers,
            ((fun x => (x.question_id == qid) && x.is_accepted) ∘
              ((fun a => if a.question_id == old.question_id && a.id != old.id then
                  { a with is_accepted := false } else a) ∘
                (fun a => if a.id == aid then { a with is_accepted := val } else a))) a
            = ((a.question_id == qid) && a.is_accepted) := by
          intro a hain
          simp only [Function.comp_apply]
          cases h1 : (a.id == aid) with
          | true =>
            have haold : a = old := nodup_key_inj (fun a => a.id) db.answers hnd a hain old hmem
              (by show a.id = old.id; rw [hid]; exact eq_of_beq h1)
            subst haold
            have hqa : (a.question_id == qid) = false := by
              simp only [beq_eq_false_iff_ne, ne_eq]
              intro hcon
              exact hq hcon.symm
            simp [hqa]
          | false =>
            cases hqaold : (a.question_id == old.question_id) with
            | true =>
              have hqa : (a.question_id == qid) = false := by
                simp only [beq_eq_false_iff_ne, ne_eq]
                intro hcon
                rw [hcon] at hqaold
                exact hq (eq_of_beq hqaold)
              have hne : ¬(a.id = old.id) := by
                rw [hid]
                intro hcon
                rw [hcon] at h1
                simp at h1
              simp [hqaold, hqa, hne]
            | false =>
              simp [hqaold]
        rw [countP_congr_eq _ _ _ hpres]
        exact h qid
    · rw [if_neg harm, List.countP_map]
      refine le_trans (List.countP_mono_left (fun a ha hpa => ?_)) (h qid)
      simp only [Function.comp_apply] at hpa
      cases h1 : (a.id == aid) with
      | true =>
        have haold : a = old := nodup_key_inj (fun a => a.id) db.answers hnd a ha old hmem
          (by show a.id = old.id; rw [hid]; exact eq_of_beq h1)
        rw [if_pos h1] at hpa
        cases hval : val with
        | false =>
          rw [hval] at hpa
          simp at hpa
        | true =>
          have hacc : old.is_accepted = true := by
            by_contra hcon
            apply harm
            simp only [Bool.not_eq_true] at hcon
            simp [hval, hcon]
          rw [hval] at hpa
          have hfst : (a.question_id == qid) = true := by simpa using hpa
          rw [hfst, haold, hacc]
          rfl
      | false =>
        rw [if_neg (by simp [h1])] at hpa
        exact hpa

/-! ## Vote-count bookkeeping lemmas -/

theorem countP_app_one {α : Type} (l : List α) (x : α) (p : α → Bool) :
    (l ++ [x]).countP p = l.countP p + (if p x then 1 else 0) := by
  rw [List.countP_append, List.countP_cons]
  simp [List.countP_nil]


/-! ## Vote-count bookkeeping -/

/-- The row transformer of `bumpQ`, uniform in the kind. -/
def bumpQrow (q : Question) (vt : VoteType) (d : Int) : Question :=
  match vt with
  | .upvote => { q with upvote_count := q.upvote_count + d }
  | .downvote => { q with downvote_count := q.downvote_count + d }

/-- The row transformer of `bumpA`, uniform in the kind. -/
def bumpArow (a : Answer) (vt : VoteType) (d : Int) : Answer :=
  match vt with
  | .upvote => { a with upvote_count := a.upvote_count + d }
  | .downvote => { a with downvote_count := a.downvote_count + d }

theorem bumpQ_eq (db : DB) (qid : Nat) (vt : VoteType) (d : Int) :
    bumpQ db qid vt d = updQ db (fun q => q.id == qid) (fun q => bumpQrow q vt d) := by
  unfold bumpQ bumpQrow
  cases vt <;> simp

theorem bumpA_eq (db : DB) (aid : Nat) (vt : VoteType) (d : Int) :
    bumpA db aid vt d = updA db (fun a => a.id == aid) (fun a => bumpArow a vt d) := by
  unfold bumpA bumpArow
  cases vt <;> simp

theorem bumpQrow_id (q : Question) (vt : VoteType) (d : Int) :
    (bumpQrow q vt d).id = q.id := by
  cases vt <;> rfl

theorem bumpArow_id (a : Answer) (vt : VoteType) (d : Int) :
    (bumpArow a vt d).id = a.id := by
  cases vt <;> rfl

theorem qCnt_bumpQrow (q : Question) (vt : VoteType) (d : Int) (k : VoteType) :
    qCnt (bumpQrow q vt d) k = qCnt q k + (if (vt == k) = true then d else 0) := by
  cases vt <;> cases k <;> simp [bumpQrow, qCnt]

theorem aCnt_bumpArow (a : Answer) (vt : VoteType) (d : Int) (k : VoteType) :
    aCnt (bumpArow a vt d) k = aCnt a k + (if (vt == k) = true then d else 0) := by
  cases vt <;> cases k <;> simp [bumpArow, aCnt]

theorem beq_symm_nat (x y : Nat) : (x == y) = (y == x) := by
  cases hxy : (x == y) with
  | true => simp [eq_of_beq hxy]
  | false =>
    simp only [beq_eq_false_iff_ne, ne_eq] at hxy
    symm
    simp only [beq_eq_false_iff_ne, ne_eq]
    exact fun hcon => hxy hcon.symm

theorem counts_insertVote (db : DB) (v : Vote)
    (htgt : (v.question_id.isSome && v.answer_id.isNone
      || v.question_id.isNone && v.answer_id.isSome) = true)
    (h : countsConsistent db) : countsConsistent (insertVote db v) := by
  unfold insertVote update_vote_counts_insert
  cases hvq : v.question_id with
  | some qid =>
    have hva : v.answer_id = none := by
      cases hva : v.answer_id with
      | none => rfl
      | some aid =>
        rw [hvq, hva] at htgt
        simp at htgt
    show countsConsistent (bumpQ { db with votes := db.votes ++ [v] } qid v.vote_type 1)
    rw [bumpQ_eq]
    constructor
    · intro q' hq'
      obtain ⟨q, hq, rfl⟩ := List.mem_map.mp hq'
      intro k
      have hid : (if (q.id == qid) = true then bumpQrow q v.vote_type 1 else q).id = q.id := by
        split
        · exact bumpQrow_id q _ _
        · rfl
      have hcnt : qCnt (if (q.id == qid) = true then bumpQrow q v.vote_type 1 else q) k
          = qCnt q k + (if ((q.id == qid) && (v.vote_type == k)) = true then 1 else 0) := by
        cases hqid : (q.id == qid) with
        | true =>
          rw [if_pos rfl]
          rw [qCnt_bumpQrow]
          simp
        | false =>
          rw [if_neg (by simp)]
          simp
      have hcond : (v.question_id == some q.id) = (q.id == qid) := by
        rw [hvq]
        show (qid == q.id) = _
        exact beq_symm_nat qid q.id
      have hlive : qLive (updQ { db with votes := db.votes ++ [v] }
            (fun q => q.id == qid) (fun q => bumpQrow q v.vote_type 1)) q.id k
          = qLive db q.id k
            + (if ((q.id == qid) && (v.vote_type == k)) = true then 1 else 0) := by
        unfold qLive
        rw [updQ_votes]
        show (db.votes ++ [v]).countP _ = _
        rw [countP_app_one]
        rw [show ((v.question_id == some q.id) && (v.vote_type == k))
            = ((q.id == qid) && (v.vote_type == k)) by rw [hcond]]
      rw [hid, hcnt, hlive, h.1 q hq k]
      cases hc : ((q.id == qid) && (v.vote_type == k)) <;> simp
    · intro a ha
      rw [updQ_answers] at ha
      intro k
      have hlive : aLive (updQ { db with votes := db.votes ++ [v] }
            (fun q => q.id == qid) (fun q => bumpQrow q v.vote_type 1)) a.id k
          = aLive db a.id k := by
        unfold aLive
        rw [updQ_votes]
        show (db.votes ++ [v]).countP _ = _
        rw [countP_app_one]
        simp [hva]
      rw [hlive]
      exact h.2 a ha k
  | none =>
    cases hva : v.answer_id with
    | none =>
      rw [hvq, hva] at htgt
      simp at htgt
    | some aid =>
      show countsConsistent (bumpA { db with votes := db.votes ++ [v] } aid v.vote_type 1)
      rw [bumpA_eq]
      constructor
      · intro q hq
        intro k
        have hlive : qLive (updA { db with votes := db.votes ++ [v] }
              (fun a => a.id == aid) (fun a => bumpArow a v.vote_type 1)) q.id k
            = qLive db q.id k := by
          unfold qLive
          show (db.votes ++ [v]).countP _ = _
          rw [countP_app_one]
          simp [hvq]
        rw [hlive]
        exact h.1 q hq k
      · intro a' ha'
        rw [updA_answers] at ha'
        obtain ⟨a, ha, rfl⟩ := List.mem_map.mp ha'
        intro k
        have hid : (if (a.id == aid) = true then bumpArow a v.vote_type 1 else a).id = a.id := by
          split
          · exact bumpArow_id a _ _
          · rfl
        have hcnt : aCnt (if (a.id == aid) = true then bumpArow a v.vote_type 1 else a) k
            = aCnt a k + (if ((a.id == aid) && (v.vote_type == k)) = true then 1 else 0) := by
          cases haid : (a.id == aid) with
          | true =>
            rw [if_pos rfl]
            rw [aCnt_bumpArow]
            simp
          | false =>
            rw [if_neg (by simp)]
            simp
        have hcond : (v.answer_id == some a.id) = (a.id == aid) := by
          rw [hva]
          show (aid == a.id) = _
          exact beq_symm_nat aid a.id
        have hlive : aLive (updA { db with votes := db.votes ++ [v] }
              (fun a => a.id == aid) (fun a => bumpArow a v.vote_type 1)) a.id k
            = aLive db a.id k
              + (if ((a.id == aid) && (v.vote_type == k)) = true then 1 else 0) := by
          unfold aLive
          show (db.votes ++ [v]).countP _ = _
          rw [countP_app_one]
          rw [show ((v.answer_id == some a.id) && (v.vote_type == k))
              = ((a.id == aid) && (v.vote_type == k)) by rw [hcond]]
        rw [hid, hcnt, hlive, h.2 a ha k]
        cases hc : ((a.id == aid) && (v.vote_type == k)) <;> simp

theorem counts_deleteVote (db : DB) (vid : Nat) (hwf : wf db)
    (h : countsConsistent db) : countsConsistent (deleteVote db vid) := by
  unfold deleteVote
  cases hf : db.votes.find? (fun v => v.id == vid) with
  | none => exact h
  | some old =>
    have hmem : old ∈ db.votes := List.mem_of_find?_eq_some hf
    have hvid : old.id = vid := by simpa using List.find?_some hf
    subst hvid
    have hnd : (db.votes.map (fun v => v.id)).Nodup := hwf.2.2.1
    have htgt := hwf.2.2.2.1 old hmem
    have hsplit : ∀ p : Vote → Bool,
        db.votes.countP p
          = (db.votes.filter (fun v => v.id != old.id)).countP p
            + (if p old then 1 else 0) :=
      fun p => countP_filter_ne_key (fun v => v.id) p db.votes hnd old hmem
    show countsConsistent (update_vote_counts_delete
      { db with votes := db.votes.filter (fun v => v.id != old.id) } old)
    unfold update_vote_counts_delete
    cases hvq : old.question_id with
    | some qid =>
      have hva : old.answer_id = none := by
        cases hva : old.answer_id with
        | none => rfl
        | some aid =>
          rw [hvq, hva] at htgt
          simp at htgt
      show countsConsistent (bumpQ
        { db with votes := db.votes.filter (fun v => v.id != old.id) } qid old.vote_type (-1))
      rw [bumpQ_eq]
      constructor
      · intro q' hq'
        obtain ⟨q, hq, rfl⟩ := List.mem_map.mp hq'
        intro k
        have hid : (if (q.id == qid) = true then bumpQrow q old.vote_type (-1) else q).id
            = q.id := by
          split
          · exact bumpQrow_id q _ _
          · rfl
        have hcnt : qCnt (if (q.id == qid) = true then bumpQrow q old.vote_type (-1) else q) k
            = qCnt q k + (if ((q.id == qid) && (old.vote_type == k)) = true then -1 else 0) := by
          cases hqid : (q.id == qid) with
          | true =>
            rw [if_pos rfl, qCnt_bumpQrow]
            simp
          | false =>
            rw [if_neg (by simp)]
            simp
        have hs := hsplit (fun v => v.question_id == some q.id && v.vote_type == k)
        have hpold : ((old.question_id == some q.id) && (old.vote_type == k))
            = ((q.id == qid) && (old.vote_type == k)) := by
          rw [hvq]
          rw [show ((some qid == some q.id : Bool)) = (q.id == qid) from by
            show (qid == q.id) = _
            exact beq_symm_nat qid q.id]
        rw [hpold] at hs
        rw [hid, hcnt, h.1 q hq k]
        show (↑(db.votes.countP (fun v => v.question_id == some q.id && v.vote_type == k)) : Int)
            + (if ((q.id == qid) && (old.vote_type == k)) = true then -1 else 0)
          = ↑((db.votes.filter (fun v => v.id != old.id)).countP
              (fun v => v.question_id == some q.id && v.vote_type == k))
        cases hc : ((q.id == qid) && (old.vote_type == k)) with
        | true =>
          rw [hc] at hs
          simp at hs ⊢
          omega
        | false =>
          rw [hc] at hs
          simp at hs ⊢
          omega
      · intro a ha
        intro k
        have hs := hsplit (fun v => v.answer_id == some a.id && v.vote_type == k)
        rw [show ((old.answer_id == some a.id) && (old.vote_type == k)) = false from by
          rw [hva]
          rfl] at hs
        show aCnt a k = ↑((db.votes.filter (fun v => v.id != old.id)).countP
            (fun v => v.answer_id == some a.id && v.vote_type == k))
        rw [h.2 a ha k]
        simp at hs
        show (↑(db.votes.countP (fun v => v.answer_id == some a.id && v.vote_type == k)) : Int)
            = _
        omega
    | none =>
      cases hva : old.answer_id with
      | none =>
        rw [hvq, hva] at htgt
        simp at htgt
      | some aid =>
        show countsConsistent (bumpA
          { db with votes := db.votes.filter (fun v => v.id != old.id) } aid old.vote_type (-1))
        rw [bumpA_eq]
        constructor
        · intro q hq
          intro k
          have hs := hsplit (fun v => v.question_id == some q.id && v.vote_type == k)
          rw [show ((old.question_id == some q.id) && (old.vote_type == k)) = false from by
            rw [hvq]
            rfl] at hs
          show qCnt q k = ↑((db.votes.filter (fun v => v.id != old.id)).countP
              (fun v => v.question_id == some q.id && v.vote_type == k))
          rw [h.1 q hq k]
          simp at hs
          show (↑(db.votes.countP (fun v => v.question_id == some q.id && v.vote_type == k)) : Int)
              = _
          omega
        · intro a' ha'
          obtain ⟨a, ha, rfl⟩ := List.mem_map.mp ha'
          intro k
          have hid : (if (a.id == aid) = true then bumpArow a old.vote_type (-1) else a).id
              = a.id := by
            split
            · exact bumpArow_id a _ _
            · rfl
          have hcnt : aCnt (if (a.id == aid) = true then bumpArow a old.vote_type (-1) else a) k
              = aCnt a k + (if ((a.id == aid) && (old.vote_type == k)) = true then -1 else 0) := by
            cases haid : (a.id == aid) with
            | true =>
              rw [if_pos rfl, aCnt_bumpArow]
              simp
            | false =>
              rw [if_neg (by simp)]
              simp
          have hs := hsplit (fun v => v.answer_id == some a.id && v.vote_type == k)
          have hpold : ((old.answer_id == some a.id) && (old.vote_type == k))
              = ((a.id == aid) && (old.vote_type == k)) := by
            rw [hva]
            rw [show ((some aid == some a.id : Bool)) = (a.id == aid) from by
              show (aid == a.id) = _
              exact beq_symm_nat aid a.id]
          rw [hpold] at hs
          rw [hid, hcnt, h.2 a ha k]
          show (↑(db.votes.countP (fun v => v.answer_id == some a.id && v.vote_type == k)) : Int)
              + (if ((a.id == aid) && (old.vote_type == k)) = true then -1 else 0)
            = ↑((db.votes.filter (fun v => v.id != old.id)).countP
                (fun v => v.answer_id == some a.id && v.vote_type == k))
          cases hc : ((a.id == aid) && (old.vote_type == k)) with
          | true =>
            rw [hc] at hs
            simp at hs ⊢
            omega
          | false =>
            rw [hc] at hs
            simp at hs ⊢
            omega

theorem counts_changeVote (db : DB) (vid : Nat) (t : VoteType) (hwf : wf db)
    (h : countsConsistent db) : countsConsistent (updateVoteType db vid t) := by
  unfold updateVoteType
  cases hf : db.votes.find? (fun v => v.id == vid) with
  | none => exact h
  | some old =>
    have hmem : old ∈ db.votes := List.mem_of_find?_eq_some hf
    have hvid : old.id = vid := by simpa using List.find?_some hf
    subst hvid
    have hnd : (db.votes.map (fun v => v.id)).Nodup := hwf.2.2.1
    have htgt := hwf.2.2.2.1 old hmem
    have hupd : ∀ p : Vote → Bool,
        (db.votes.map (fun v => if v.id == old.id then { v with vote_type := t } else v)).countP p
            + (if p old then 1 else 0)
          = db.votes.countP p + (if p { old with vote_type := t } then 1 else 0) :=
      fun p => countP_map_update_key (fun v => v.id) p (fun v => { v with vote_type := t })
        db.votes hnd old hmem
    show countsConsistent (update_vote_counts_update { db with votes := db.votes.map (fun v => if v.id == old.id then { v with vote_type := t } else v) } old { old with vote_type := t })
    unfold update_vote_counts_update
    cases hvq : old.question_id with
    | some qid =>
      have hva : old.answer_id = none := by
        cases hva : old.answer_id with
        | none => rfl
        | some aid =>
          rw [hvq, hva] at htgt
          simp at htgt
      show countsConsistent (bumpQ (bumpQ { db with votes := db.votes.map (fun v => if v.id == old.id then { v with vote_type := t } else v) } qid old.vote_type (-1)) qid t 1)
      rw [bumpQ_eq, bumpQ_eq]
      constructor
      · intro q' hq'
        obtain ⟨q1, hq1, rfl⟩ := List.mem_map.mp hq'
        obtain ⟨q, hq, rfl⟩ := List.mem_map.mp hq1
        intro k
        beta_reduce
        have hs := hupd (fun v => v.question_id == some q.id && v.vote_type == k)
        have hpold : ((old.question_id == some q.id) && (old.vote_type == k))
            = ((q.id == qid) && (old.vote_type == k)) := by
          rw [hvq]
          rw [show ((some qid == some q.id : Bool)) = (q.id == qid) from by
            show (qid == q.id) = _
            exact beq_symm_nat qid q.id]
        have hpnew : ((old.question_id == some q.id) && ((t : VoteType) == k))
            = ((q.id == qid) && (t == k)) := by
          rw [hvq]
          rw [show ((some qid == some q.id : Bool)) = (q.id == qid) from by
            show (qid == q.id) = _
            exact beq_symm_nat qid q.id]
        rw [hpold] at hs
        rw [show (({ old with vote_type := t } : Vote).question_id == some q.id
              && ({ old with vote_type := t } : Vote).vote_type == k)
            = ((q.id == qid) && (t == k)) from hpnew] at hs
        cases hqid : (q.id == qid) with
        | false =>
          rw [show ((if false = true then bumpQrow q old.vote_type (-1) else q).id == qid)
              = false from by
            rw [if_neg (by simp)]
            exact hqid]
          rw [if_neg (by simp), if_neg (by simp)]
          rw [h.1 q hq k]
          rw [hqid] at hs
          simp only [Bool.false_and, Bool.false_eq_true, if_false, Nat.add_zero] at hs
          show (↑(db.votes.countP (fun v => v.question_id == some q.id && v.vote_type == k)) : Int)
            = ↑((db.votes.map
                (fun v => if v.id == old.id then { v with vote_type := t } else v)).countP
                (fun v => v.question_id == some q.id && v.vote_type == k))
          omega
        | true =>
          rw [show ((if true = true then bumpQrow q old.vote_type (-1) else q).id == qid)
              = true from by
            rw [if_pos rfl, bumpQrow_id]
            exact hqid]
          rw [if_pos rfl, if_pos rfl]
          rw [bumpQrow_id, bumpQrow_id]
          rw [qCnt_bumpQrow, qCnt_bumpQrow]
          rw [h.1 q hq k]
          rw [hqid] at hs
          simp only [Bool.true_and] at hs
          show (↑(db.votes.countP (fun v => v.question_id == some q.id && v.vote_type == k)) : Int)
              + (if (old.vote_type == k) = true then (-1 : Int) else 0)
              + (if ((t : VoteType) == k) = true then (1 : Int) else 0)
            = ↑((db.votes.map
                (fun v => if v.id == old.id then { v with vote_type := t } else v)).countP
                (fun v => v.question_id == some q.id && v.vote_type == k))
          cases hok : (old.vote_type == k) <;> cases htk : ((t : VoteType) == k) <;>
            rw [hok, htk] at hs <;> simp at hs ⊢ <;> omega
      · intro a ha
        intro k
        have hs := hupd (fun v => v.answer_id == some a.id && v.vote_type == k)
        rw [show ((old.answer_id == some a.id) && (old.vote_type == k)) = false from by
          rw [hva]
          rfl] at hs
        rw [show (({ old with vote_type := t } : Vote).answer_id == some a.id
              && ({ old with vote_type := t } : Vote).vote_type == k)
            = false from by
          show ((old.answer_id == some a.id) && _) = false
          rw [hva]
          rfl] at hs
        simp only [Bool.false_eq_true, if_false, Nat.add_zero] at hs
        rw [h.2 a ha k]
        show (↑(db.votes.countP (fun v => v.answer_id == some a.id && v.vote_type == k)) : Int)
          = ↑((db.votes.map
              (fun v => if v.id == old.id then { v with vote_type := t } else v)).countP
              (fun v => v.answer_id == some a.id && v.vote_type == k))
        omega
    | none =>
      cases hva : old.answer_id with
      | none =>
        rw [hvq, hva] at htgt
        simp at htgt
      | some aid =>
        show countsConsistent (bumpA (bumpA { db with votes := db.votes.map (fun v => if v.id == old.id then { v with vote_type := t } else v) } aid old.vote_type (-1)) aid t 1)
        rw [bumpA_eq, bumpA_eq]
        constructor
        · intro q hq
          intro k
          have hs := hupd (fun v => v.question_id == some q.id && v.vote_type == k)
          rw [show ((old.question_id == some q.id) && (old.vote_type == k)) = false from by
            rw [hvq]
            rfl] at hs
          rw [show (({ old with vote_type := t } : Vote).question_id == some q.id
                && ({ old with vote_type := t } : Vote).vote_type == k)
              = false from by
            show ((old.question_id == some q.id) && _) = false
            rw [hvq]
            rfl] at hs
          simp only [Bool.false_eq_true, if_false, Nat.add_zero] at hs
          rw [h.1 q hq k]
          show (↑(db.votes.countP (fun v => v.question_id == some q.id && v.vote_type == k)) : Int)
            = ↑((db.votes.map
                (fun v => if v.id == old.id then { v with vote_type := t } else v)).countP
                (fun v => v.question_id == some q.id && v.vote_type == k))
          omega
        · intro a' ha'
          obtain ⟨a1, ha1, rfl⟩ := List.mem_map.mp ha'
          obtain ⟨a, ha, rfl⟩ := List.mem_map.mp ha1
          intro k
          beta_reduce
          have hs := hupd (fun v => v.answer_id == some a.id && v.vote_type == k)
          have hpold : ((old.answer_id == some a.id) && (old.vote_type == k))
              = ((a.id == aid) && (old.vote_type == k)) := by
            rw [hva]
            rw [show ((some aid == some a.id : Bool)) = (a.id == aid) from by
              show (aid == a.id) = _
              exact beq_symm_nat aid a.id]
          have hpnew : ((old.answer_id == some a.id) && ((t : VoteType) == k))
              = ((a.id == aid) && (t == k)) := by
            rw [hva]
            rw [show ((some aid == some a.id : Bool)) = (a.id == aid) from by
              show (aid == a.id) = _
              exact beq_symm_nat aid a.id]
          rw [hpold] at hs
          rw [show (({ old with vote_type := t } : Vote).answer_id == some a.id
                && ({ old with vote_type := t } : Vote).vote_type == k)
              = ((a.id == aid) && (t == k)) from hpnew] at hs
          cases haid : (a.id == aid) with
          | false =>
            rw [show ((if false = true then bumpArow a old.vote_type (-1) else a).id == aid)
                = false from by
              rw [if_neg (by simp)]
              exact haid]
            rw [if_neg (by simp), if_neg (by simp)]
            rw [h.2 a ha k]
            rw [haid] at hs
            simp only [Bool.false_and, Bool.false_eq_true, if_false, Nat.add_zero] at hs
            show (↑(db.votes.countP (fun v => v.answer_id == some a.id && v.vote_type == k)) : Int)
              = ↑((db.votes.map
                  (fun v => if v.id == old.id then { v with vote_type := t } else v)).countP
                  (fun v => v.answer_id == some a.id && v.vote_type == k))
            omega
          | true =>
            rw [show ((if true = true then bumpArow a old.vote_type (-1) else a).id == aid)
                = true from by
              rw [if_pos rfl, bumpArow_id]
              exact haid]
            rw [if_pos rfl, if_pos rfl]
            rw [bumpArow_id, bumpArow_id]
            rw [aCnt_bumpArow, aCnt_bumpArow]
            rw [h.2 a ha k]
            rw [haid] at hs
            simp only [Bool.true_and] at hs
            show (↑(db.votes.countP (fun v => v.answer_id == some a.id && v.vote_type == k)) : Int)
                + (if (old.vote_type == k) = true then (-1 : Int) else 0)
                + (if ((t : VoteType) == k) = true then (1 : Int) else 0)
              = ↑((db.votes.map
                  (fun v => if v.id == old.id then { v with vote_type := t } else v)).countP
                  (fun v => v.answer_id == some a.id && v.vote_type == k))
            cases hok : (old.vote_type == k) <;> cases htk : ((t : VoteType) == k) <;>
              rw [hok, htk] at hs <;> simp at hs ⊢ <;> omega

/-! ## Invariant preservation: inserts and vote operations -/

theorem not_mem_key_of_all_ne {α : Type} (key : α → Nat) (l : List α) (x : α)
    (h : l.all (fun r => key r != key x) = true) : key x ∉ l.map key := by
  intro hcon
  obtain ⟨r, hr, hrx⟩ := List.mem_map.mp hcon
  have := List.all_eq_true.mp h r hr
  rw [hrx] at this
  simp at this

theorem wf_createQuestion (db : DB) (q : Question)
    (hfresh : db.questions.all (fun r => r.id != q.id) = true)
    (hwf : wf db) : wf (createQuestion db q) := by
  obtain ⟨h1, h2, h3, h4, h5, h6, h7⟩ := hwf
  refine ⟨?_, h2, h3, h4, ?_, h6, ?_⟩
  · show (List.map (fun q => q.id) (db.questions ++ [q])).Nodup
    rw [List.map_append]
    exact nodup_append_singleton _ _ h1 (not_mem_key_of_all_ne (fun q => q.id) _ q hfresh)
  · intro v hv qid hq
    obtain ⟨r, hr, hrid⟩ := h5 v hv qid hq
    exact ⟨r, List.mem_append_left _ hr, hrid⟩
  · intro a ha
    obtain ⟨r, hr, hrid⟩ := h7 a ha
    exact ⟨r, List.mem_append_left _ hr, hrid⟩

theorem acc_createQuestion (db : DB) (q : Question)
    (h : atMostOneAccepted db) : atMostOneAccepted (createQuestion db q) := h

theorem counts_createQuestion (db : DB) (q : Question)
    (hfresh : db.questions.all (fun r => r.id != q.id) = true)
    (hdef : q.upvote_count = 0 ∧ q.downvote_count = 0 ∧ q.answer_count = 0 ∧
      q.has_accepted_answer = false)
    (hwf : wf db) (h : countsConsistent db) : countsConsistent (createQuestion db q) := by
  constructor
  · intro r hr
    rcases List.mem_append.mp hr with hr | hr
    · exact h.1 r hr
    · rw [List.mem_singleton] at hr
      subst hr
      intro k
      have hz : qLive (createQuestion db r) r.id k = 0 := by
        unfold qLive
        rw [List.countP_eq_zero]
        intro v hv
        simp only [Bool.and_eq_true, not_and]
        intro hvq _
        obtain ⟨r2, hr2, hr2id⟩ := hwf.2.2.2.2.1 v hv r.id (by
          cases hv2 : v.question_id with
          | none => rw [hv2] at hvq; simp at hvq
          | some x =>
            rw [hv2] at hvq
            have : x = r.id := by simpa using hvq
            rw [this])
        have := List.all_eq_true.mp hfresh r2 hr2
        rw [hr2id] at this
        simp at this
      rw [hz]
      cases k with
      | upvote => simpa [qCnt] using hdef.1
      | downvote => simpa [qCnt] using hdef.2.1
  · intro a ha
    exact h.2 a ha

theorem wf_createAnswer (db : DB) (a : Answer)
    (hfk : db.questions.any (fun q => q.id == a.question_id) = true)
    (hfresh : db.answers.all (fun r => r.id != a.id) = true)
    (hwf : wf db) : wf (createAnswer db a) := by
  have hwf1 : wf { db with answers := db.answers ++ [a] } := by
    obtain ⟨h1, h2, h3, h4, h5, h6, h7⟩ := hwf
    refine ⟨h1, ?_, h3, h4, h5, ?_, ?_⟩
    · show (List.map (fun a => a.id) (db.answers ++ [a])).Nodup
      rw [List.map_append]
      exact nodup_append_singleton _ _ h2 (not_mem_key_of_all_ne (fun a => a.id) _ a hfresh)
    · intro v hv aid ha
      obtain ⟨r, hr, hrid⟩ := h6 v hv aid ha
      exact ⟨r, List.mem_append_left _ hr, hrid⟩
    · intro b hb
      rcases List.mem_append.mp hb with hb | hb
      · exact h7 b hb
      · rw [List.mem_singleton] at hb
        subst hb
        obtain ⟨r, hr, hrid⟩ := List.any_eq_true.mp hfk
        exact ⟨r, hr, eq_of_beq hrid⟩
  exact wf_transfer _ _
    ⟨id, fun _ => ⟨rfl, rfl, rfl⟩, by rw [List.map_id]; rfl⟩
    ⟨(fun q => if q.id == a.question_id then { q with answer_count := q.answer_count + 1 }
        else q),
      fun q => by by_cases hq : (q.id == a.question_id) = true <;> simp [hq], rfl⟩
    ⟨id, fun _ => ⟨rfl, rfl⟩, by rw [List.map_id]; rfl⟩ hwf1

theorem acc_createAnswer (db : DB) (a : Answer)
    (hdef : a.is_accepted = false)
    (h : atMostOneAccepted db) : atMostOneAccepted (createAnswer db a) := by
  intro qid
  show ((db.answers ++ [a]).countP fun b => b.question_id == qid && b.is_accepted) ≤ 1
  rw [countP_app_one]
  rw [show ((a.question_id == qid) && a.is_accepted) = false from by
    rw [hdef]
    simp]
  simpa using h qid

theorem counts_createAnswer (db : DB) (a : Answer)
    (hfresh : db.answers.all (fun r => r.id != a.id) = true)
    (hdef : a.upvote_count = 0 ∧ a.downvote_count = 0 ∧ a.is_accepted = false)
    (hwf : wf db) (h : countsConsistent db) : countsConsistent (createAnswer db a) := by
  constructor
  · intro q' hq'
    obtain ⟨q, hq, rfl⟩ := List.mem_map.mp hq'
    intro k
    have hcnt : qCnt (if (q.id == a.question_id) = true then
        { q with answer_count := q.answer_count + 1 } else q) k = qCnt q k := by
      cases hqa : (q.id == a.question_id) <;> cases k <;> simp [qCnt]
    have hidq : (if (q.id == a.question_id) = true then
        { q with answer_count := q.answer_count + 1 } else q).id = q.id := by
      cases hqa : (q.id == a.question_id) <;> simp
    rw [hcnt, hidq]
    exact h.1 q hq k
  · intro b hb
    rcases List.mem_append.mp hb with hb | hb
    · exact h.2 b hb
    · rw [List.mem_singleton] at hb
      subst hb
      intro k
      have hz : aLive (createAnswer db b) b.id k = 0 := by
        unfold aLive
        rw [List.countP_eq_zero]
        intro v hv
        simp only [Bool.and_eq_true, not_and]
        intro hva _
        obtain ⟨r2, hr2, hr2id⟩ := hwf.2.2.2.2.2.1 v hv b.id (by
          cases hv2 : v.answer_id with
          | none => rw [hv2] at hva; simp at hva
          | some x =>
            rw [hv2] at hva
            have : x = b.id := by simpa using hva
            rw [this])
        have := List.all_eq_true.mp hfresh r2 hr2
        rw [hr2id] at this
        simp at this
      rw [hz]
      cases k with
      | upvote => simpa [aCnt] using hdef.1
      | downvote => simpa [aCnt] using hdef.2.1

theorem wf_insertVote (db : DB) (v : Vote)
    (hfresh : db.votes.all (fun r => r.id != v.id) = true)
    (htgt : (v.question_id.isSome && v.answer_id.isNone
      || v.question_id.isNone && v.answer_id.isSome) = true)
    (hfkq : ∀ qid, v.question_id = some qid →
      db.questions.any (fun q => q.id == qid) = true)
    (hfka : ∀ aid, v.answer_id = some aid →
      db.answers.any (fun a => a.id == aid) = true)
    (hwf : wf db) : wf (insertVote db v) := by
  have hwf1 : wf { db with votes := db.votes ++ [v] } := by
    obtain ⟨h1, h2, h3, h4, h5, h6, h7⟩ := hwf
    refine ⟨h1, h2, ?_, ?_, ?_, ?_, h7⟩
    · show (List.map (fun v => v.id) (db.votes ++ [v])).Nodup
      rw [List.map_append]
      exact nodup_append_singleton _ _ h3 (not_mem_key_of_all_ne (fun v => v.id) _ v hfresh)
    · intro w hw
      rcases List.mem_append.mp hw with hw | hw
      · exact h4 w hw
      · rw [List.mem_singleton] at hw
        subst hw
        exact htgt
    · intro w hw qid hq
      rcases List.mem_append.mp hw with hw | hw
      · exact h5 w hw qid hq
      · rw [List.mem_singleton] at hw
        subst hw
        obtain ⟨r, hr, hrid⟩ := List.any_eq_true.mp (hfkq qid hq)
        exact ⟨r, hr, eq_of_beq hrid⟩
    · intro w hw aid ha
      rcases List.mem_append.mp hw with hw | hw
      · exact h6 w hw aid ha
      · rw [List.mem_singleton] at hw
        subst hw
        obtain ⟨r, hr, hrid⟩ := List.any_eq_true.mp (hfka aid ha)
        exact ⟨r, hr, eq_of_beq hrid⟩
  exact (counterFrame_uvc_insert _ v).to_wf hwf1

theorem acc_insertVote (db : DB) (v : Vote)
    (h : atMostOneAccepted db) : atMostOneAccepted (insertVote db v) :=
  (counterFrame_uvc_insert { db with votes := db.votes ++ [v] } v).to_acc h

theorem wf_deleteVote (db : DB) (vid : Nat) (hwf : wf db) : wf (deleteVote db vid) := by
  unfold deleteVote
  cases hf : db.votes.find? (fun v => v.id == vid) with
  | none => exact hwf
  | some old =>
    have hwf1 : wf { db with votes := db.votes.filter (fun v => v.id != vid) } := by
      obtain ⟨h1, h2, h3, h4, h5, h6, h7⟩ := hwf
      refine ⟨h1, h2, ?_, ?_, ?_, ?_, h7⟩
      · exact (h3.sublist ((List.filter_sublist _).map _))
      · exact fun w hw => h4 w (List.mem_of_mem_filter hw)
      · exact fun w hw qid hq => h5 w (List.mem_of_mem_filter hw) qid hq
      · exact fun w hw aid ha => h6 w (List.mem_of_mem_filter hw) aid ha
    exact (counterFrame_uvc_delete _ old).to_wf hwf1

theorem acc_deleteVote (db : DB) (vid : Nat)
    (h : atMostOneAccepted db) : atMostOneAccepted (deleteVote db vid) := by
  unfold deleteVote
  cases hf : db.votes.find? (fun v => v.id == vid) with
  | none => exact h
  | some old =>
    exact (counterFrame_uvc_delete
      { db with votes := db.votes.filter (fun v => v.id != vid) } old).to_acc h

theorem wf_changeVote (db : DB) (vid : Nat) (t : VoteType) (hwf : wf db) :
    wf (updateVoteType db vid t) := by
  unfold updateVoteType
  cases hf : db.votes.find? (fun v => v.id == vid) with
  | none => exact hwf
  | some old =>
    have hwf1 : wf (updV db (fun v => v.id == vid) (fun v => { v with vote_type := t })) := by
      refine wf_transfer db _ ⟨_, fun v => ?_, rfl⟩
        ⟨id, fun _ => rfl, by rw [List.map_id]; rfl⟩
        ⟨id, fun _ => ⟨rfl, rfl⟩, by rw [List.map_id]; rfl⟩ hwf
      by_cases hv : (v.id == vid) = true <;> simp [hv]
    exact (counterFrame_uvc_update _ old _).to_wf hwf1

theorem acc_changeVote (db : DB) (vid : Nat) (t : VoteType)
    (h : atMostOneAccepted db) : atMostOneAccepted (updateVoteType db vid t) := by
  unfold updateVoteType
  cases hf : db.votes.find? (fun v => v.id == vid) with
  | none => exact h
  | some old =>
    exact (counterFrame_uvc_update
      (updV db (fun v => v.id == vid) (fun v => { v with vote_type := t })) old _).to_acc h

/-! ## Invariant preservation: deletions -/

theorem foldl_id {α β : Type} (f : β → α → β) (d : β) (l : List α)
    (h : ∀ x ∈ l, f d x = d) : l.foldl f d = d := by
  induction l with
  | nil => rfl
  | cons x l ih =>
    rw [List.foldl_cons, h x (List.mem_cons_self x l)]
    exact ih (fun y hy => h y (List.mem_cons_of_mem x hy))

/-- With the deleted answer gone, the cascade's trigger firings match no rows:
`deleteAnswer` is the pure double filter plus the answer-count decrement. -/
theorem deleteAnswer_eq (db : DB) (aid : Nat) (old : Answer)
    (hf : db.answers.find? (fun a => a.id == aid) = some old)
    (hwf : wf db) :
    deleteAnswer db aid
      = updQ { db with
          answers := db.answers.filter (fun a => a.id != aid),
          votes := db.votes.filter (fun v => !(v.answer_id == some aid)) }
        (fun q => q.id == old.question_id)
        (fun q => { q with answer_count := q.answer_count - 1 }) := by
  unfold deleteAnswer
  rw [hf]
  show updQ (List.foldl update_vote_counts_delete { db with answers := db.answers.filter (fun a => a.id != aid), votes := db.votes.filter (fun v => !(v.answer_id == some aid)) } (db.votes.filter (fun v => v.answer_id == some aid))) (fun q => q.id == old.question_id) (fun q => { q with answer_count := q.answer_count - 1 }) = _
  congr 1
  apply foldl_id
  intro w hw
  have hwv : w ∈ db.votes := (List.mem_filter.mp hw).1
  have hwp : (w.answer_id == some aid) = true := (List.mem_filter.mp hw).2
  have htgt := hwf.2.2.2.1 w hwv
  have hwq : w.question_id = none := by
    cases hq : w.question_id with
    | none => rfl
    | some x =>
      cases ha : w.answer_id with
      | none =>
        rw [ha] at hwp
        simp at hwp
      | some y =>
        rw [hq, ha] at htgt
        simp at htgt
  apply uvcd_id
  · intro qid hq
    rw [hwq] at hq
    exact Option.noConfusion hq
  · intro aid2 _ ha2
    intro a ha
    have haf : (a.id != aid) = true := (List.mem_filter.mp ha).2
    have haa : aid2 = aid := by
      rw [ha2] at hwp
      simpa using hwp
    rw [haa]
    simpa using haf

theorem wf_deleteAnswer (db : DB) (aid : Nat) (hwf : wf db) : wf (deleteAnswer db aid) := by
  cases hf : db.answers.find? (fun a => a.id == aid) with
  | none =>
    unfold deleteAnswer
    rw [hf]
    exact hwf
  | some old =>
    rw [deleteAnswer_eq db aid old hf hwf]
    have hwf1 : wf { db with
        answers := db.answers.filter (fun a => a.id != aid),
        votes := db.votes.filter (fun v => !(v.answer_id == some aid)) } := by
      obtain ⟨h1, h2, h3, h4, h5, h6, h7⟩ := hwf
      refine ⟨h1, ?_, ?_, ?_, ?_, ?_, ?_⟩
      · exact h2.sublist ((List.filter_sublist _).map _)
      · exact h3.sublist ((List.filter_sublist _).map _)
      · exact fun w hw => h4 w (List.mem_of_mem_filter hw)
      · exact fun w hw qid hq => h5 w (List.mem_of_mem_filter hw) qid hq
      · intro w hw x ha
        have hw2 : w ∈ db.votes.filter (fun v => !(v.answer_id == some aid)) := hw
        have hkeep : (!(w.answer_id == some aid)) = true := (List.mem_filter.mp hw2).2
        obtain ⟨b, hb, hbid⟩ := h6 w (List.mem_of_mem_filter hw) x ha
        refine ⟨b, List.mem_filter.mpr ⟨hb, ?_⟩, hbid⟩
        rw [ha] at hkeep
        simp only [Bool.not_eq_eq_eq_not, Bool.not_true] at hkeep
        simp only [bne_iff_ne, ne_eq, hbid]
        intro hcon
        rw [hcon] at hkeep
        simp at hkeep
      · exact fun b hb => h7 b (List.mem_of_mem_filter hb)
    refine wf_transfer _ _ ?_ ?_ ?_ hwf1
    · exact ⟨id, fun _ => ⟨rfl, rfl, rfl⟩, by rw [List.map_id]; rfl⟩
    · exact ⟨(fun q => if q.id == old.question_id then
          { q with answer_count := q.answer_count - 1 } else q),
        fun q => by by_cases hq : (q.id == old.question_id) = true <;> simp [hq], rfl⟩
    · exact ⟨id, fun _ => ⟨rfl, rfl⟩, by rw [List.map_id]; rfl⟩

theorem acc_deleteAnswer (db : DB) (aid : Nat) (hwf : wf db)
    (h : atMostOneAccepted db) : atMostOneAccepted (deleteAnswer db aid) := by
  cases hf : db.answers.find? (fun a => a.id == aid) with
  | none =>
    unfold deleteAnswer
    rw [hf]
    exact h
  | some old =>
    rw [deleteAnswer_eq db aid old hf hwf]
    intro qid
    show ((db.answers.filter (fun a => a.id != aid)).countP
      (fun a => a.question_id == qid && a.is_accepted)) ≤ 1
    calc (db.answers.filter (fun a => a.id != aid)).countP
          (fun a => a.question_id == qid && a.is_accepted)
        ≤ db.answers.countP (fun a => a.question_id == qid && a.is_accepted) :=
          List.Sublist.countP_le _ (List.filter_sublist _)
      _ ≤ 1 := h qid

theorem counts_deleteAnswer (db : DB) (aid : Nat) (hwf : wf db)
    (h : countsConsistent db) : countsConsistent (deleteAnswer db aid) := by
  cases hf : db.answers.find? (fun a => a.id == aid) with
  | none =>
    unfold deleteAnswer
    rw [hf]
    exact h
  | some old =>
    rw [deleteAnswer_eq db aid old hf hwf]
    have hbase : countsConsistent { db with
        answers := db.answers.filter (fun a => a.id != aid),
        votes := db.votes.filter (fun v => !(v.answer_id == some aid)) } := by
      constructor
      · intro q hq
        intro k
        have hl : (db.votes.filter (fun v => !(v.answer_id == some aid))).countP
            (fun v => v.question_id == some q.id && v.vote_type == k)
            = db.votes.countP (fun v => v.question_id == some q.id && v.vote_type == k) := by
          apply countP_filter_sub
          intro v hv hp
          have htgt := hwf.2.2.2.1 v hv
          have hva : v.answer_id = none := by
            cases hva : v.answer_id with
            | none => rfl
            | some y =>
              cases hvq : v.question_id with
              | none =>
                rw [hvq] at hp
                simp at hp
              | some x =>
                rw [hvq, hva] at htgt
                simp at htgt
          rw [hva]
          rfl
        show qCnt q k = (((db.votes.filter (fun v => !(v.answer_id == some aid))).countP
          (fun v => v.question_id == some q.id && v.vote_type == k) : Nat) : Int)
        rw [hl]
        exact h.1 q hq k
      · intro b hb
        have hb2 : b ∈ db.answers.filter (fun a => a.id != aid) := hb
        have hbm : b ∈ db.answers := (List.mem_filter.mp hb2).1
        have hbne : (b.id != aid) = true := (List.mem_filter.mp hb2).2
        intro k
        have hl : (db.votes.filter (fun v => !(v.answer_id == some aid))).countP
            (fun v => v.answer_id == some b.id && v.vote_type == k)
            = db.votes.countP (fun v => v.answer_id == some b.id && v.vote_type == k) := by
          apply countP_filter_sub
          intro v hv hp
          have hva : v.answer_id = some b.id := by
            cases hva : v.answer_id with
            | none =>
              rw [hva] at hp
              simp at hp
            | some y =>
              rw [hva] at hp
              have : y = b.id := by simpa using (Bool.and_elim_left hp)
              rw [this]
          rw [hva]
          simp only [Bool.not_eq_eq_eq_not, Bool.not_true, Bool.not_eq_true]
          simp only [beq_eq_false_iff_ne, ne_eq, Option.some.injEq]
          simp only [bne_iff_ne, ne_eq] at hbne
          exact fun hcon => hbne hcon
        show aCnt b k = (((db.votes.filter (fun v => !(v.answer_id == some aid))).countP
          (fun v => v.answer_id == some b.id && v.vote_type == k) : Nat) : Int)
        rw [hl]
        exact h.2 b hbm k
    refine counts_transfer _ _ ?_ ?_ ?_ hbase
    · exact rfl
    · exact ⟨(fun q => if q.id == old.question_id then
          { q with answer_count := q.answer_count - 1 } else q),
        fun q => by by_cases hq : (q.id == old.question_id) = true <;> simp [hq], rfl⟩
    · exact ⟨id, fun _ => ⟨rfl, rfl, rfl⟩, by rw [List.map_id]; rfl⟩

/-- The pure effect of `deleteQuestion`: all three relations filtered.  The
trigger firings of the cascade all target rows that are already gone. -/
def deleteQuestionPure (db : DB) (qid : Nat) : DB :=
  { questions := db.questions.filter (fun q => q.id != qid),
    answers := db.answers.filter (fun a => a.question_id != qid),
    votes := db.votes.filter (fun v => !(v.question_id == some qid
      || (db.answers.filter (fun a => a.question_id == qid)).any
          (fun a => some a.id == v.answer_id))) }

theorem deleteQuestion_eq (db : DB) (qid : Nat) (q0 : Question)
    (hfq : db.questions.find? (fun q => q.id == qid) = some q0)
    (hwf : wf db) :
    deleteQuestion db qid = deleteQuestionPure db qid := by
  unfold deleteQuestion
  rw [hfq]
  have h1 : List.foldl update_vote_counts_delete (deleteQuestionPure db qid)
      (db.votes.filter (fun v => v.question_id == some qid
        || (db.answers.filter (fun a => a.question_id == qid)).any
            (fun a => some a.id == v.answer_id))) = deleteQuestionPure db qid := by
    apply foldl_id
    intro w hw
    have hwv := (List.mem_filter.mp hw).1
    have hwp := (List.mem_filter.mp hw).2
    have htgt := hwf.2.2.2.1 w hwv
    apply uvcd_id
    · intro qid2 hq2
      intro q hqm
      have hqm2 : q ∈ db.questions.filter (fun q => q.id != qid) := hqm
      have hqne := (List.mem_filter.mp hqm2).2
      cases hd1 : (w.question_id == some qid) with
      | true =>
        have hq12 : qid2 = qid := by
          rw [hq2] at hd1
          simpa using hd1
        rw [hq12]
        simpa using hqne
      | false =>
        exfalso
        rw [hd1] at hwp
        simp only [Bool.false_or] at hwp
        obtain ⟨a, _, haeq⟩ := List.any_eq_true.mp hwp
        have hwa : w.answer_id = some a.id := by
          cases hwa : w.answer_id with
          | none =>
            rw [hwa] at haeq
            simp at haeq
          | some y =>
            rw [hwa] at haeq
            have hay : a.id = y := by simpa using haeq
            rw [hay]
        rw [hq2, hwa] at htgt
        simp at htgt
    · intro aid2 hnone ha2
      intro b hbm
      have hbm2 : b ∈ db.answers.filter (fun a => a.question_id != qid) := hbm
      have hbq := (List.mem_filter.mp hbm2).2
      have hbmem := (List.mem_filter.mp hbm2).1
      have hd1 : (w.question_id == some qid) = false := by
        rw [hnone]
        rfl
      rw [hd1] at hwp
      simp only [Bool.false_or] at hwp
      obtain ⟨a, hamem, haeq⟩ := List.any_eq_true.mp hwp
      have hamem2 := List.mem_filter.mp hamem
      have hwa : a.id = aid2 := by
        rw [ha2] at haeq
        simpa using haeq
      simp only [beq_eq_false_iff_ne, ne_eq]
      intro hcon
      have hba : b = a := nodup_key_inj (fun a => a.id) db.answers hwf.2.1 b hbmem a hamem2.1
        (by show b.id = a.id; rw [hcon, ← hwa])
      rw [hba] at hbq
      rw [eq_of_beq hamem2.2] at hbq
      simp at hbq
  have h2 : (db.answers.filter (fun a => a.question_id == qid)).foldl
      (fun d a => update_question_answer_count_delete d a)
      (deleteQuestionPure db qid) = deleteQuestionPure db qid := by
    apply foldl_id
    intro a ham
    have haq := (List.mem_filter.mp ham).2
    show update_question_answer_count_delete (deleteQuestionPure db qid) a
      = deleteQuestionPure db qid
    unfold update_question_answer_count_delete
    apply updQ_id
    intro q hqm
    have hqne := (List.mem_filter.mp
      (show q ∈ db.questions.filter (fun q => q.id != qid) from hqm)).2
    rw [eq_of_beq haq]
    simpa using hqne
  show (db.answers.filter (fun a => a.question_id == qid)).foldl
      (fun d a => update_question_answer_count_delete d a)
      (List.foldl update_vote_counts_delete (deleteQuestionPure db qid)
        (db.votes.filter (fun v => v.question_id == some qid
          || (db.answers.filter (fun a => a.question_id == qid)).any
              (fun a => some a.id == v.answer_id))))
    = deleteQuestionPure db qid
  rw [h1]
  exact h2

theorem wf_deleteQuestion (db : DB) (qid : Nat) (hwf : wf db) :
    wf (deleteQuestion db qid) := by
  cases hfq : db.questions.find? (fun q => q.id == qid) with
  | none =>
    unfold deleteQuestion
    rw [hfq]
    exact hwf
  | some q0 =>
    rw [deleteQuestion_eq db qid q0 hfq hwf]
    obtain ⟨h1, h2, h3, h4, h5, h6, h7⟩ := hwf
    refine ⟨?_, ?_, ?_, ?_, ?_, ?_, ?_⟩
    · exact h1.sublist ((List.filter_sublist _).map _)
    · exact h2.sublist ((List.filter_sublist _).map _)
    · exact h3.sublist ((List.filter_sublist _).map _)
    · intro w hw
      exact h4 w (List.mem_of_mem_filter hw)
    · intro w hw x hq
      have hw2 : w ∈ db.votes.filter (fun v => !(v.question_id == some qid
          || (db.answers.filter (fun a => a.question_id == qid)).any
              (fun a => some a.id == v.answer_id))) := hw
      have hkeep := (List.mem_filter.mp hw2).2
      obtain ⟨r, hr, hrid⟩ := h5 w (List.mem_filter.mp hw2).1 x hq
      refine ⟨r, List.mem_filter.mpr ⟨hr, ?_⟩, hrid⟩
      simp only [bne_iff_ne, ne_eq, hrid]
      intro hcon
      rw [hq, hcon] at hkeep
      simp at hkeep
    · intro w hw x ha
      have hw2 : w ∈ db.votes.filter (fun v => !(v.question_id == some qid
          || (db.answers.filter (fun a => a.question_id == qid)).any
              (fun a => some a.id == v.answer_id))) := hw
      have hkeep := (List.mem_filter.mp hw2).2
      obtain ⟨b, hb, hbid⟩ := h6 w (List.mem_filter.mp hw2).1 x ha
      refine ⟨b, List.mem_filter.mpr ⟨hb, ?_⟩, hbid⟩
      simp only [bne_iff_ne, ne_eq]
      intro hcon
      simp only [Bool.not_eq_eq_eq_not, Bool.not_true, Bool.or_eq_false_iff] at hkeep
      have hany := hkeep.2
      rw [← Bool.not_eq_true] at hany
      apply hany
      apply List.any_eq_true.mpr
      refine ⟨b, List.mem_filter.mpr ⟨hb, by simp [hcon]⟩, ?_⟩
      rw [ha, hbid]
      simp
    · intro b hb
      have hb2 : b ∈ db.answers.filter (fun a => a.question_id != qid) := hb
      have hbq := (List.mem_filter.mp hb2).2
      obtain ⟨r, hr, hrid⟩ := h7 b (List.mem_filter.mp hb2).1
      refine ⟨r, List.mem_filter.mpr ⟨hr, ?_⟩, hrid⟩
      simp only [bne_iff_ne, ne_eq, hrid]
      simp only [bne_iff_ne, ne_eq] at hbq
      exact hbq

theorem acc_deleteQuestion (db : DB) (qid : Nat) (hwf : wf db)
    (h : atMostOneAccepted db) : atMostOneAccepted (deleteQuestion db qid) := by
  cases hfq : db.questions.find? (fun q => q.id == qid) with
  | none =>
    unfold deleteQuestion
    rw [hfq]
    exact h
  | some q0 =>
    rw [deleteQuestion_eq db qid q0 hfq hwf]
    intro x
    show ((db.answers.filter (fun a => a.question_id != qid)).countP
      (fun a => a.question_id == x && a.is_accepted)) ≤ 1
    calc ((db.answers.filter (fun a => a.question_id != qid)).countP
          (fun a => a.question_id == x && a.is_accepted))
        ≤ db.answers.countP (fun a => a.question_id == x && a.is_accepted) :=
          List.Sublist.countP_le _ (List.filter_sublist _)
      _ ≤ 1 := h x

theorem counts_deleteQuestion (db : DB) (qid : Nat) (hwf : wf db)
    (h : countsConsistent db) : countsConsistent (deleteQuestion db qid) := by
  cases hfq : db.questions.find? (fun q => q.id == qid) with
  | none =>
    unfold deleteQuestion
    rw [hfq]
    exact h
  | some q0 =>
    rw [deleteQuestion_eq db qid q0 hfq hwf]
    constructor
    · intro q hq
      have hq2 : q ∈ db.questions.filter (fun q => q.id != qid) := hq
      have hqm := (List.mem_filter.mp hq2).1
      have hqne := (List.mem_filter.mp hq2).2
      intro k
      have hl : (db.votes.filter (fun v => !(v.question_id == some qid
            || (db.answers.filter (fun a => a.question_id == qid)).any
                (fun a => some a.id == v.answer_id)))).countP
          (fun v => v.question_id == some q.id && v.vote_type == k)
          = db.votes.countP (fun v => v.question_id == some q.id && v.vote_type == k) := by
        apply countP_filter_sub
        intro v hv hp
        have htgt := hwf.2.2.2.1 v hv
        have hvq : v.question_id = some q.id := by
          cases hvq : v.question_id with
          | none =>
            rw [hvq] at hp
            simp at hp
          | some y =>
            rw [hvq] at hp
            have : y = q.id := by simpa using (Bool.and_elim_left hp)
            rw [this]
        have hva : v.answer_id = none := by
          cases hva : v.answer_id with
          | none => rfl
          | some y =>
            rw [hvq, hva] at htgt
            simp at htgt
        rw [hvq, hva]
        simp only [Bool.not_eq_eq_eq_not, Bool.not_true, Bool.or_eq_false_iff]
        constructor
        · simp only [beq_eq_false_iff_ne, ne_eq, Option.some.injEq]
          simp only [bne_iff_ne, ne_eq] at hqne
          exact hqne
        · rw [← Bool.not_eq_true]
          intro hcon
          obtain ⟨a, _, haeq⟩ := List.any_eq_true.mp hcon
          simp at haeq
      show qCnt q k = (((db.votes.filter (fun v => !(v.question_id == some qid
          || (db.answers.filter (fun a => a.question_id == qid)).any
              (fun a => some a.id == v.answer_id)))).countP
          (fun v => v.question_id == some q.id && v.vote_type == k) : Nat) : Int)
      rw [hl]
      exact h.1 q hqm k
    · intro b hb
      have hb2 : b ∈ db.answers.filter (fun a => a.question_id != qid) := hb
      have hbm := (List.mem_filter.mp hb2).1
      have hbq := (List.mem_filter.mp hb2).2
      intro k
      have hl : (db.votes.filter (fun v => !(v.question_id == some qid
            || (db.answers.filter (fun a => a.question_id == qid)).any
                (fun a => some a.id == v.answer_id)))).countP
          (fun v => v.answer_id == some b.id && v.vote_type == k)
          = db.votes.countP (fun v => v.answer_id == some b.id && v.vote_type == k) := by
        apply countP_filter_sub
        intro v hv hp
        have htgt := hwf.2.2.2.1 v hv
        have hva : v.answer_id = some b.id := by
          cases hva : v.answer_id with
          | none =>
            rw [hva] at hp
            simp at hp
          | some y =>
            rw [hva] at hp
            have : y = b.id := by simpa using (Bool.and_elim_left hp)
            rw [this]
        have hvq : v.question_id = none := by
          cases hvq : v.question_id with
          | none => rfl
          | some y =>
            rw [hvq, hva] at htgt
            simp at htgt
        rw [hvq, hva]
        simp only [Bool.not_eq_eq_eq_not, Bool.not_true, Bool.or_eq_false_iff]
        constructor
        · rfl
        · rw [← Bool.not_eq_true]
          intro hcon
          obtain ⟨a, hamem, haeq⟩ := List.any_eq_true.mp hcon
          have hamem2 := List.mem_filter.mp hamem
          have hab : a.id = b.id := by simpa using haeq
          have hba : a = b := nodup_key_inj (fun a => a.id) db.answers hwf.2.1
            a hamem2.1 b hbm hab
          rw [hba] at hamem2
          have := hamem2.2
          simp only [bne_iff_ne, ne_eq] at hbq
          exact hbq (eq_of_beq this)
      show aCnt b k = (((db.votes.filter (fun v => !(v.question_id == some qid
          || (db.answers.filter (fun a => a.question_id == qid)).any
              (fun a => some a.id == v.answer_id)))).countP
          (fun v => v.answer_id == some b.id && v.vote_type == k) : Nat) : Int)
      rw [hl]
      exact h.2 b hbm k

/-! ## The inductive invariant -/

theorem inv_step {db db' : DB} (h : Inv db) (hs : Step db db') : Inv db' := by
  obtain ⟨hwf, hacc, hcnt⟩ := h
  cases hs with
  | newQuestion q hfresh hdef =>
    exact ⟨wf_createQuestion db q hfresh hwf, acc_createQuestion db q hacc,
      counts_createQuestion db q hfresh hdef hwf hcnt⟩
  | newAnswer a hfk hfresh hdef =>
    exact ⟨wf_createAnswer db a hfk hfresh hwf, acc_createAnswer db a hdef.2.2 hacc,
      counts_createAnswer db a hfresh hdef hwf hcnt⟩
  | delAnswer aid =>
    exact ⟨wf_deleteAnswer db aid hwf, acc_deleteAnswer db aid hwf hacc,
      counts_deleteAnswer db aid hwf hcnt⟩
  | delQuestion qid =>
    exact ⟨wf_deleteQuestion db qid hwf, acc_deleteQuestion db qid hwf hacc,
      counts_deleteQuestion db qid hwf hcnt⟩
  | setAccepted aid val =>
    exact ⟨wf_setAccepted db aid val hwf, acc_setAccepted db aid val hwf hacc,
      counts_setAccepted db aid val hcnt⟩
  | addVote v hfresh htgt hfkq hfka huniq =>
    exact ⟨wf_insertVote db v hfresh htgt hfkq hfka hwf, acc_insertVote db v hacc,
      counts_insertVote db v htgt hcnt⟩
  | delVote vid =>
    exact ⟨wf_deleteVote db vid hwf, acc_deleteVote db vid hacc,
      counts_deleteVote db vid hwf hcnt⟩
  | changeVote vid t =>
    exact ⟨wf_changeVote db vid t hwf, acc_changeVote db vid t hacc,
      counts_changeVote db vid t hwf hcnt⟩

theorem inv_empty : Inv emptyDB := by
  refine ⟨⟨List.nodup_nil, List.nodup_nil, List.nodup_nil, ?_, ?_, ?_, ?_⟩, ?_, ?_, ?_⟩
  · intro v hv
    exact absurd hv (List.not_mem_nil v)
  · intro v hv
    exact absurd hv (List.not_mem_nil v)
  · intro v hv
    exact absurd hv (List.not_mem_nil v)
  · intro a ha
    exact absurd ha (List.not_mem_nil a)
  · intro qid
    show ([] : List Answer).countP _ ≤ 1
    simp
  · intro q hq
    exact absurd hq (List.not_mem_nil q)
  · intro a ha
    exact absurd ha (List.not_mem_nil a)

theorem reachable_inv {db : DB} (h : Reachable db) : Inv db := by
  induction h with
  | refl => exact inv_empty
  | tail hsteps hstep ih => exact inv_step ih hstep

/-! ## Concrete states and reachability chains -/

/-- Getter: `is_accepted` of the answer row with the given id. -/
def acceptedOf (db : DB) (aid : Nat) : Option Bool :=
  (db.answers.find? (fun x => x.id == aid)).map (fun x => x.is_accepted)

/-- Getter: `has_accepted_answer` of the question row with the given id. -/
def flagOf (db : DB) (qid : Nat) : Option Bool :=
  (db.questions.find? (fun q => q.id == qid)).map (fun q => q.has_accepted_answer)

/-- Getter: `answer_count` of the question row with the given id. -/
def answerCountOf (db : DB) (qid : Nat) : Option Int :=
  (db.questions.find? (fun q => q.id == qid)).map (fun q => q.answer_count)

/-- Getter: the counter of kind `k` on the question row with the given id. -/
def qCounterOf (db : DB) (qid : Nat) (k : VoteType) : Option Int :=
  (db.questions.find? (fun q => q.id == qid)).map (fun q => qCnt q k)

/-- Getter: the counter of kind `k` on the answer row with the given id. -/
def aCounterOf (db : DB) (aid : Nat) (k : VoteType) : Option Int :=
  (db.answers.find? (fun a => a.id == aid)).map (fun a => aCnt a k)

/-- A freshly created question, owner 10. -/
def exQ : Question :=
  { id := 1, user_id := 10, upvote_count := 0, downvote_count := 0,
    answer_count := 0, has_accepted_answer := false }

/-- A freshly created answer under question 1, author 20. -/
def exA : Answer :=
  { id := 1, question_id := 1, user_id := 20, upvote_count := 0,
    downvote_count := 0, is_accepted := false }

/-- An upvote by principal 5 on question 1. -/
def exV : Vote :=
  { id := 1, user_id := 5, question_id := some 1, answer_id := none,
    vote_type := VoteType.upvote }

/-- Question 1 with its single answer, before any acceptance. -/
def exDBqa : DB := createAnswer (createQuestion emptyDB exQ) exA

/-- `exDBqa` after the question owner accepts answer 1 at the storage level. -/
def exDBacc : DB := updateAnswerAccepted exDBqa 1 true

/-- Question 1 carrying one upvote by principal 5. -/
def exDBv : DB := insertVote (createQuestion emptyDB exQ) exV

theorem exDBqa_reachable : Reachable exDBqa := by
  have s1 : Step emptyDB (createQuestion emptyDB exQ) :=
    Step.newQuestion emptyDB exQ (by decide) (by decide)
  have s2 : Step (createQuestion emptyDB exQ) exDBqa :=
    Step.newAnswer (createQuestion emptyDB exQ) exA (by decide) (by decide) (by decide)
  exact Relation.ReflTransGen.tail (Relation.ReflTransGen.tail Relation.ReflTransGen.refl s1) s2

theorem exDBacc_reachable : Reachable exDBacc :=
  Relation.ReflTransGen.tail exDBqa_reachable (Step.setAccepted exDBqa 1 true)

theorem exDBv_reachable : Reachable exDBv := by
  have s1 : Step emptyDB (createQuestion emptyDB exQ) :=
    Step.newQuestion emptyDB exQ (by decide) (by decide)
  have s2 : Step (createQuestion emptyDB exQ) exDBv :=
    Step.addVote (createQuestion emptyDB exQ) exV (by decide) (by decide)
      (by intro qid h; cases h; decide) (by intro aid h; cases h) (by decide)
  exact Relation.ReflTransGen.tail (Relation.ReflTransGen.tail Relation.ReflTransGen.refl s1) s2

/-! ## Counter getters through the trigger updates -/

theorem any_congr_on {α : Type} (p q : α → Bool) :
    ∀ l : List α, (∀ x ∈ l, p x = q x) → l.any p = l.any q
  | [], _ => rfl
  | a :: l, h => by
    rw [List.any_cons, List.any_cons, h a (List.mem_cons_self a l),
      any_congr_on p q l (fun x hx => h x (List.mem_cons_of_mem a hx))]

theorem qCounterOf_votes (db : DB) (l : List Vote) (x : Nat) (k : VoteType) :
    qCounterOf { db with votes := l } x k = qCounterOf db x k := rfl

theorem aCounterOf_votes (db : DB) (l : List Vote) (y : Nat) (k : VoteType) :
    aCounterOf { db with votes := l } y k = aCounterOf db y k := rfl

theorem qCounterOf_answers (db : DB) (l : List Answer) (x : Nat) (k : VoteType) :
    qCounterOf { db with answers := l } x k = qCounterOf db x k := rfl

theorem qCounterOf_bumpA (db : DB) (aid : Nat) (vt : VoteType) (d : Int)
    (x : Nat) (k : VoteType) :
    qCounterOf (bumpA db aid vt d) x k = qCounterOf db x k := by
  rw [bumpA_eq]
  rfl

theorem aCounterOf_bumpQ (db : DB) (qid : Nat) (vt : VoteType) (d : Int)
    (y : Nat) (k : VoteType) :
    aCounterOf (bumpQ db qid vt d) y k = aCounterOf db y k := by
  rw [bumpQ_eq]
  rfl

theorem qCounterOf_bumpQ (db : DB) (qid : Nat) (vt : VoteType) (d : Int)
    (x : Nat) (k : VoteType) :
    qCounterOf (bumpQ db qid vt d) x k
      = (qCounterOf db x k).map
          (fun c => if x = qid then c + (if (vt == k) = true then d else 0) else c) := by
  rw [bumpQ_eq]
  unfold qCounterOf
  show ((db.questions.map (fun q => if q.id == qid then bumpQrow q vt d else q)).find?
      (fun q => q.id == x)).map (fun q => qCnt q k) = _
  rw [find?_map_pres _ _ (fun q => by
    by_cases h : (q.id == qid) = true
    · rw [if_pos h, bumpQrow_id]
    · rw [if_neg h])]
  cases hq : db.questions.find? (fun q => q.id == x) with
  | none => rfl
  | some q =>
    have hqx : (q.id == x) = true := by simpa using List.find?_some hq
    simp only [Option.map_some']
    by_cases h : (q.id == qid) = true
    · have hx : x = qid := by rw [← eq_of_beq hqx, eq_of_beq h]
      rw [if_pos h, if_pos hx, qCnt_bumpQrow]
    · have hx : ¬ x = qid := fun hcon => h (by
        rw [eq_of_beq hqx, hcon]
        exact beq_self_eq_true qid)
      rw [if_neg h, if_neg hx]

theorem aCounterOf_bumpA (db : DB) (aid : Nat) (vt : VoteType) (d : Int)
    (y : Nat) (k : VoteType) :
    aCounterOf (bumpA db aid vt d) y k
      = (aCounterOf db y k).map
          (fun c => if y = aid then c + (if (vt == k) = true then d else 0) else c) := by
  rw [bumpA_eq]
  unfold aCounterOf
  show ((db.answers.map (fun a => if a.id == aid then bumpArow a vt d else a)).find?
      (fun a => a.id == y)).map (fun a => aCnt a k) = _
  rw [find?_map_pres _ _ (fun a => by
    by_cases h : (a.id == aid) = true
    · rw [if_pos h, bumpArow_id]
    · rw [if_neg h])]
  cases ha : db.answers.find? (fun a => a.id == y) with
  | none => rfl
  | some a =>
    have hay : (a.id == y) = true := by simpa using List.find?_some ha
    simp only [Option.map_some']
    by_cases h : (a.id == aid) = true
    · have hy : y = aid := by rw [← eq_of_beq hay, eq_of_beq h]
      rw [if_pos h, if_pos hy, aCnt_bumpArow]
    · have hy : ¬ y = aid := fun hcon => h (by
        rw [eq_of_beq hay, hcon]
        exact beq_self_eq_true aid)
      rw [if_neg h, if_neg hy]

/-! ## The same-kind vote UPDATE cancels itself -/

theorem bumpQrow_cancel (q : Question) (vt : VoteType) :
    bumpQrow (bumpQrow q vt (-1)) vt 1 = q := by
  cases vt <;> simp [bumpQrow, neg_add_cancel_right]

theorem bumpArow_cancel (a : Answer) (vt : VoteType) :
    bumpArow (bumpArow a vt (-1)) vt 1 = a := by
  cases vt <;> simp [bumpArow, neg_add_cancel_right]

/-- C10: the `update_vote_counts` trigger fires on every `UPDATE` of
`public.votes`; when the updated row keeps its `vote_type` (and therefore its
target columns, which the client never changes), the trigger's decrement of
the old kind's counter is immediately cancelled by its increment of the same
kind's counter, so the `questions` and `answers` tables are left exactly as
they were. -/
theorem C10_same_kind_update_noop (db : DB) (vid : Nat) (old : Vote)
    (hf : db.votes.find? (fun v => v.id == vid) = some old) :
    (updateVoteType db vid old.vote_type).questions = db.questions ∧
    (updateVoteType db vid old.vote_type).answers = db.answers := by
  unfold updateVoteType
  rw [hf]
  show (update_vote_counts_update
        (updV db (fun v => v.id == vid) (fun v => { v with vote_type := old.vote_type }))
        old { old with vote_type := old.vote_type }).questions = db.questions ∧
      (update_vote_counts_update
        (updV db (fun v => v.id == vid) (fun v => { v with vote_type := old.vote_type }))
        old { old with vote_type := old.vote_type }).answers = db.answers
  unfold update_vote_counts_update
  cases hq : old.question_id with
  | some qid =>
    show (bumpQ (bumpQ
          (updV db (fun v => v.id == vid) (fun v => { v with vote_type := old.vote_type }))
          qid old.vote_type (-1)) qid old.vote_type 1).questions = db.questions ∧
        (bumpQ (bumpQ
          (updV db (fun v => v.id == vid) (fun v => { v with vote_type := old.vote_type }))
          qid old.vote_type (-1)) qid old.vote_type 1).answers = db.answers
    rw [bumpQ_eq, bumpQ_eq]
    constructor
    · show (db.questions.map
          (fun q => if q.id == qid then bumpQrow q old.vote_type (-1) else q)).map
            (fun q => if q.id == qid then bumpQrow q old.vote_type 1 else q)
          = db.questions
      rw [List.map_map]
      have hpt : ∀ q ∈ db.questions,
          ((fun q => if q.id == qid then bumpQrow q old.vote_type 1 else q)
            ∘ (fun q => if q.id == qid then bumpQrow q old.vote_type (-1) else q)) q
            = q := by
        intro q _
        simp only [Function.comp_apply]
        by_cases h : (q.id == qid) = true
        · rw [if_pos h,
            if_pos (show ((bumpQrow q old.vote_type (-1)).id == qid) = true by
              rw [bumpQrow_id]; exact h),
            bumpQrow_cancel]
        · rw [if_neg h, if_neg h]
      exact (List.map_congr_left hpt).trans (List.map_id db.questions)
    · rfl
  | none =>
    cases ha : old.answer_id with
    | some aid =>
      show (bumpA (bumpA
            (updV db (fun v => v.id == vid) (fun v => { v with vote_type := old.vote_type }))
            aid old.vote_type (-1)) aid old.vote_type 1).questions = db.questions ∧
          (bumpA (bumpA
            (updV db (fun v => v.id == vid) (fun v => { v with vote_type := old.vote_type }))
            aid old.vote_type (-1)) aid old.vote_type 1).answers = db.answers
      rw [bumpA_eq, bumpA_eq]
      constructor
      · rfl
      · show (db.answers.map
            (fun a => if a.id == aid then bumpArow a old.vote_type (-1) else a)).map
              (fun a => if a.id == aid then bumpArow a old.vote_type 1 else a)
            = db.answers
        rw [List.map_map]
        have hpt : ∀ a ∈ db.answers,
            ((fun a => if a.id == aid then bumpArow a old.vote_type 1 else a)
              ∘ (fun a => if a.id == aid then bumpArow a old.vote_type (-1) else a)) a
              = a := by
          intro a _
          simp only [Function.comp_apply]
          by_cases h : (a.id == aid) = true
          · rw [if_pos h,
              if_pos (show ((bumpArow a old.vote_type (-1)).id == aid) = true by
                rw [bumpArow_id]; exact h),
              bumpArow_cancel]
          · rw [if_neg h, if_neg h]
        exact (List.map_congr_left hpt).trans (List.map_id db.answers)
    | none =>
      exact ⟨rfl, rfl⟩

theorem C10_same_kind_update_noop_witness :
    (updateVoteType exDBv 1 VoteType.upvote).questions = exDBv.questions ∧
    (updateVoteType exDBv 1 VoteType.upvote).answers = exDBv.answers :=
  C10_same_kind_update_noop exDBv 1 exV (by decide)

/-! ## C1, C2: evaluations exhibiting the divergences -/

/-- C1: the claim says deleting the sole accepted answer re-runs the unaccept
re-check and leaves `has_accepted_answer = false`.  In the code
`update_accepted_answer_trigger` is `AFTER UPDATE` only — there is no DELETE
trigger on `public.answers` for accepted-answer maintenance — so in the
reachable state `exDBacc` (one question whose only answer, id 1, is the
accepted one) deleting that answer removes the row and its votes, decrements
`answer_count`, and leaves `has_accepted_answer = true` on a question with no
accepted (indeed no) answers. -/
theorem C1_delete_accepted_answer_keeps_flag :
    Reachable exDBacc ∧
    exDBacc.answers.countP (fun b => b.is_accepted) = 1 ∧
    acceptedOf exDBacc 1 = some true ∧
    (deleteAnswer exDBacc 1).answers = [] ∧
    flagOf (deleteAnswer exDBacc 1) 1 = some true :=
  ⟨exDBacc_reachable, by decide, by decide, by decide, by decide⟩

/-- C2: the claim says `setAnswerAccepted(c, A, true)` fails with
`AuthorizationError` for a non-owner and succeeds for the question's owner.
In the code there is no authorization error anywhere: `handleAcceptAnswer`
silently returns for a non-owner, and for the owner the `UPDATE` is filtered
by the row-level-security policy `Users can update their own answers`
(`USING auth.uid() = user_id`), which matches the answer's author, not the
question's owner.  In the reachable state `exDBqa` (question 1 owned by
principal 10, answer 1 authored by principal 20) the owner's accept call is a
complete no-op: no row changes and no error is raised. -/
theorem C2_owner_accept_is_silent_noop :
    Reachable exDBqa ∧
    (exDBqa.questions.find? (fun q => q.id == 1)).map (fun q => q.user_id) = some 10 ∧
    (exDBqa.answers.find? (fun b => b.id == 1)).map (fun b => b.user_id) = some 20 ∧
    acceptedOf exDBqa 1 = some false ∧
    handleAcceptAnswer exDBqa 10 1 1 = exDBqa :=
  ⟨exDBqa_reachable, by decide, by decide, by decide, by decide⟩

/-! ## C6: what createVote actually does -/

theorem uvci_votes (db : DB) (v : Vote) :
    (update_vote_counts_insert db v).votes = db.votes := by
  unfold update_vote_counts_insert
  cases v.question_id with
  | some qid =>
    show (bumpQ db qid v.vote_type 1).votes = db.votes
    rw [bumpQ_eq]
    rfl
  | none =>
    cases v.answer_id with
    | some aid =>
      show (bumpA db aid v.vote_type 1).votes = db.votes
      rw [bumpA_eq]
      rfl
    | none => rfl

theorem cascade_votes (db : DB) (p : Vote → Bool) :
    (cascadeDeleteVotes db p).votes = db.votes.filter (fun v => !(p v)) :=
  (cascade_frame db p).1

theorem insertVote_votes (db : DB) (v : Vote) :
    (insertVote db v).votes = db.votes ++ [v] := by
  unfold insertVote
  rw [uvci_votes]

/-- C6 (counterexample): in the reachable state `exDBv`, principal 5 already
holds an upvote on question 1.  Requesting the identical vote again does not
fail with a conflict — the client deletes the vote (`removed`).  The conflict
arises instead on the non-identical request (switching to a downvote): the
client calls `upsert` without a row id and without an `onConflict` target, so
the insert it performs violates `unique_question_vote` and the state is left
unchanged — no replacement happens. -/
theorem C6_conflict_not_on_identical_vote :
    (exDBv.votes.any (fun v => voteMatchesTarget v 5 (Target.question 1)
        && v.vote_type == VoteType.upvote)) = true ∧
    (handleVote exDBv 2 5 (Target.question 1) VoteType.upvote).2 = VoteResult.removed ∧
    (handleVote exDBv 2 5 (Target.question 1) VoteType.downvote).2 = VoteResult.conflict ∧
    (handleVote exDBv 2 5 (Target.question 1) VoteType.downvote).1 = exDBv :=
  ⟨by decide, by decide, by decide, by decide⟩

/-- C6 (amended): `createVote(principal, target, kind)` deletes the vote and
succeeds when the principal's existing vote on the target has the requested
kind; it fails with a uniqueness-conflict error, leaving the store unchanged,
when the existing vote has the other kind (the upsert's conflict target is
the generated primary key, so it never replaces the row); and it inserts the
vote when the principal holds no vote on the target. -/
theorem C6_createVote_behaviour (db : DB) (newId p : Nat) (t : Target) (k : VoteType) :
    match db.votes.find? (fun v => voteMatchesTarget v p t) with
    | some cur =>
        if cur.vote_type = k then
          (handleVote db newId p t k).2 = VoteResult.removed ∧
          ((handleVote db newId p t k).1.votes.all
            (fun v => !(voteMatchesTarget v p t))) = true
        else
          handleVote db newId p t k = (db, VoteResult.conflict)
    | none =>
        (handleVote db newId p t k).2 = VoteResult.inserted ∧
        ((handleVote db newId p t k).1.votes.any
          (fun v => voteMatchesTarget v p t)) = true := by
  cases hf : db.votes.find? (fun v => voteMatchesTarget v p t) with
  | none =>
    show (handleVote db newId p t k).2 = VoteResult.inserted ∧
      ((handleVote db newId p t k).1.votes.any
        (fun v => voteMatchesTarget v p t)) = true
    cases t with
    | question qid =>
      have h1 : handleVote db newId p (Target.question qid) k
          = (insertVote db
              { id := newId, user_id := p, question_id := some qid,
                answer_id := none, vote_type := k }, VoteResult.inserted) := by
        unfold handleVote
        rw [hf]
      rw [h1, insertVote_votes, List.any_append]
      refine ⟨rfl, ?_⟩
      simp [voteMatchesTarget]
    | answer aid =>
      have h1 : handleVote db newId p (Target.answer aid) k
          = (insertVote db
              { id := newId, user_id := p, question_id := none,
                answer_id := some aid, vote_type := k }, VoteResult.inserted) := by
        unfold handleVote
        rw [hf]
      rw [h1, insertVote_votes, List.any_append]
      refine ⟨rfl, ?_⟩
      simp [voteMatchesTarget]
  | some cur =>
    show if cur.vote_type = k then _ else _
    by_cases hk : cur.vote_type = k
    · rw [if_pos hk]
      have h1 : (handleVote db newId p t k)
          = (cascadeDeleteVotes db (fun v => voteMatchesTarget v p t),
              VoteResult.removed) := by
        unfold handleVote
        rw [hf]
        show (if cur.vote_type = k then
            (cascadeDeleteVotes db (fun v => voteMatchesTarget v p t), VoteResult.removed)
          else (db, VoteResult.conflict))
          = (cascadeDeleteVotes db (fun v => voteMatchesTarget v p t), VoteResult.removed)
        rw [if_pos hk]
      rw [h1, cascade_votes]
      refine ⟨rfl, ?_⟩
      rw [List.all_eq_true]
      intro v hvm
      exact (List.mem_filter.mp hvm).2
    · rw [if_neg hk]
      unfold handleVote
      rw [hf]
      show (if cur.vote_type = k then
          (cascadeDeleteVotes db (fun v => voteMatchesTarget v p t), VoteResult.removed)
        else (db, VoteResult.conflict))
        = (db, VoteResult.conflict)
      rw [if_neg hk]

/-! ## C3, C9: consequences of the inductive invariant -/

/-- C3: in every state reachable from the empty store by any sequence of the
engine's operations (question/answer creation and deletion, acceptance
toggles, vote insertion, deletion and kind change, with their triggers and
cascades), each question has at most one answer with `is_accepted = true`. -/
theorem C3_at_most_one_accepted (db : DB) (h : Reachable db) :
    atMostOneAccepted db :=
  (reachable_inv h).2.1

theorem C3_at_most_one_accepted_witness : atMostOneAccepted exDBacc :=
  C3_at_most_one_accepted exDBacc exDBacc_reachable

/-- The question row of `exDBv` (one upvote already counted). -/
def exQv : Question :=
  { id := 1, user_id := 10, upvote_count := 1, downvote_count := 0,
    answer_count := 0, has_accepted_answer := false }

/-- C9: in every reachable state — in particular under any sequence of vote
insert, delete and kind-change operations and cascade deletions of targets —
the `upvote_count` and `downvote_count` of every question and answer are
non-negative (they equal the cast of a live-vote count). -/
theorem C9_counters_never_negative (db : DB) (h : Reachable db) :
    (∀ q ∈ db.questions, 0 ≤ q.upvote_count ∧ 0 ≤ q.downvote_count) ∧
    (∀ a ∈ db.answers, 0 ≤ a.upvote_count ∧ 0 ≤ a.downvote_count) := by
  obtain ⟨-, -, hc⟩ := reachable_inv h
  constructor
  · intro q hq
    have h1 : q.upvote_count = ((qLive db q.id VoteType.upvote : Nat) : Int) :=
      hc.1 q hq VoteType.upvote
    have h2 : q.downvote_count = ((qLive db q.id VoteType.downvote : Nat) : Int) :=
      hc.1 q hq VoteType.downvote
    rw [h1, h2]
    exact ⟨Int.natCast_nonneg _, Int.natCast_nonneg _⟩
  · intro a ha
    have h1 : a.upvote_count = ((aLive db a.id VoteType.upvote : Nat) : Int) :=
      hc.2 a ha VoteType.upvote
    have h2 : a.downvote_count = ((aLive db a.id VoteType.downvote : Nat) : Int) :=
      hc.2 a ha VoteType.downvote
    rw [h1, h2]
    exact ⟨Int.natCast_nonneg _, Int.natCast_nonneg _⟩

theorem C9_counters_never_negative_witness :
    0 ≤ exQv.upvote_count ∧ 0 ≤ exQv.downvote_count :=
  (C9_counters_never_negative exDBv exDBv_reachable).1 exQv (by decide)

/-! ## C5: kind change and round trip on the counters -/

theorem qCounterOf_changeVote (db : DB) (v : Vote)
    (hnd : (db.votes.map (fun w => w.id)).Nodup) (hv : v ∈ db.votes)
    (qid0 : Nat) (hvq : v.question_id = some qid0) (t : VoteType)
    (x : Nat) (k : VoteType) :
    qCounterOf (updateVoteType db v.id t) x k
      = (qCounterOf db x k).map (fun c =>
          (if x = qid0 ∧ (t == k) = true then c + 1 else c)
            - (if x = qid0 ∧ (v.vote_type == k) = true then 1 else 0)) := by
  have hfv : db.votes.find? (fun w => w.id == v.id) = some v :=
    find?_key_of_nodup (fun w => w.id) db.votes hnd v hv
  unfold updateVoteType
  rw [hfv]
  show qCounterOf (update_vote_counts_update
      (updV db (fun w => w.id == v.id) (fun w => { w with vote_type := t })) v
      { v with vote_type := t }) x k = _
  unfold update_vote_counts_update
  rw [hvq]
  show qCounterOf (bumpQ (bumpQ
      (updV db (fun w => w.id == v.id) (fun w => { w with vote_type := t }))
      qid0 v.vote_type (-1)) qid0 t 1) x k = _
  rw [qCounterOf_bumpQ, qCounterOf_bumpQ, Option.map_map]
  show (qCounterOf db x k).map
      ((fun c => if x = qid0 then c + (if (t == k) = true then 1 else 0) else c)
        ∘ (fun c => if x = qid0 then c + (if (v.vote_type == k) = true then (-1) else 0)
            else c)) = _
  cases ho : qCounterOf db x k with
  | none => rfl
  | some c =>
    simp only [Option.map_some', Function.comp_apply]
    congr 1
    by_cases hx : x = qid0
    · rw [if_pos hx, if_pos hx]
      by_cases h1 : (v.vote_type == k) = true <;> by_cases h2 : (t == k) = true <;>
        simp [hx, h1, h2] <;> omega
    · rw [if_neg hx, if_neg hx,
        if_neg (fun hcon => hx hcon.1), if_neg (fun hcon => hx hcon.1)]
      omega

theorem aCounterOf_changeVote (db : DB) (v : Vote)
    (hnd : (db.votes.map (fun w => w.id)).Nodup) (hv : v ∈ db.votes)
    (hvqn : v.question_id = none)
    (aid0 : Nat) (hva : v.answer_id = some aid0) (t : VoteType)
    (y : Nat) (k : VoteType) :
    aCounterOf (updateVoteType db v.id t) y k
      = (aCounterOf db y k).map (fun c =>
          (if y = aid0 ∧ (t == k) = true then c + 1 else c)
            - (if y = aid0 ∧ (v.vote_type == k) = true then 1 else 0)) := by
  have hfv : db.votes.find? (fun w => w.id == v.id) = some v :=
    find?_key_of_nodup (fun w => w.id) db.votes hnd v hv
  unfold updateVoteType
  rw [hfv]
  show aCounterOf (update_vote_counts_update
      (updV db (fun w => w.id == v.id) (fun w => { w with vote_type := t })) v
      { v with vote_type := t }) y k = _
  unfold update_vote_counts_update
  rw [hvqn, hva]
  show aCounterOf (bumpA (bumpA
      (updV db (fun w => w.id == v.id) (fun w => { w with vote_type := t }))
      aid0 v.vote_type (-1)) aid0 t 1) y k = _
  rw [aCounterOf_bumpA, aCounterOf_bumpA, Option.map_map]
  show (aCounterOf db y k).map
      ((fun c => if y = aid0 then c + (if (t == k) = true then 1 else 0) else c)
        ∘ (fun c => if y = aid0 then c + (if (v.vote_type == k) = true then (-1) else 0)
            else c)) = _
  cases ho : aCounterOf db y k with
  | none => rfl
  | some c =>
    simp only [Option.map_some', Function.comp_apply]
    congr 1
    by_cases hy : y = aid0
    · rw [if_pos hy, if_pos hy]
      by_cases h1 : (v.vote_type == k) = true <;> by_cases h2 : (t == k) = true <;>
        simp [hy, h1, h2] <;> omega
    · rw [if_neg hy, if_neg hy,
        if_neg (fun hcon => hy hcon.1), if_neg (fun hcon => hy hcon.1)]
      omega

theorem qCounterOf_roundtrip (db : DB) (v : Vote)
    (hnd : (db.votes.map (fun w => w.id)).Nodup) (hv : v ∈ db.votes)
    (x : Nat) (k : VoteType) :
    qCounterOf (insertVote (deleteVote db v.id) v) x k = qCounterOf db x k := by
  have hfv : db.votes.find? (fun w => w.id == v.id) = some v :=
    find?_key_of_nodup (fun w => w.id) db.votes hnd v hv
  unfold deleteVote
  rw [hfv]
  show qCounterOf (insertVote (update_vote_counts_delete
      { db with votes := db.votes.filter (fun w => w.id != v.id) } v) v) x k = _
  unfold insertVote update_vote_counts_delete update_vote_counts_insert
  cases hvq : v.question_id with
  | some qid =>
    show qCounterOf (bumpQ { bumpQ { db with votes := db.votes.filter (fun w => w.id != v.id) } qid v.vote_type (-1) with votes := (bumpQ { db with votes := db.votes.filter (fun w => w.id != v.id) } qid v.vote_type (-1)).votes ++ [v] } qid v.vote_type 1) x k = _
    rw [qCounterOf_bumpQ, qCounterOf_votes, qCounterOf_bumpQ, qCounterOf_votes,
      Option.map_map]
    cases ho : qCounterOf db x k with
    | none => rfl
    | some c =>
      simp only [Option.map_some', Function.comp_apply]
      congr 1
      by_cases hx : x = qid
      · rw [if_pos hx, if_pos hx]
        by_cases h1 : (v.vote_type == k) = true <;> simp [h1]
      · rw [if_neg hx, if_neg hx]
  | none =>
    cases hva : v.answer_id with
    | some aid =>
      show qCounterOf (bumpA { bumpA { db with votes := db.votes.filter (fun w => w.id != v.id) } aid v.vote_type (-1) with votes := (bumpA { db with votes := db.votes.filter (fun w => w.id != v.id) } aid v.vote_type (-1)).votes ++ [v] } aid v.vote_type 1) x k = _
      rw [qCounterOf_bumpA, qCounterOf_votes, qCounterOf_bumpA, qCounterOf_votes]
    | none => rfl

theorem aCounterOf_roundtrip (db : DB) (v : Vote)
    (hnd : (db.votes.map (fun w => w.id)).Nodup) (hv : v ∈ db.votes)
    (y : Nat) (k : VoteType) :
    aCounterOf (insertVote (deleteVote db v.id) v) y k = aCounterOf db y k := by
  have hfv : db.votes.find? (fun w => w.id == v.id) = some v :=
    find?_key_of_nodup (fun w => w.id) db.votes hnd v hv
  unfold deleteVote
  rw [hfv]
  show aCounterOf (insertVote (update_vote_counts_delete
      { db with votes := db.votes.filter (fun w => w.id != v.id) } v) v) y k = _
  unfold insertVote update_vote_counts_delete update_vote_counts_insert
  cases hvq : v.question_id with
  | some qid =>
    show aCounterOf (bumpQ { bumpQ { db with votes := db.votes.filter (fun w => w.id != v.id) } qid v.vote_type (-1) with votes := (bumpQ { db with votes := db.votes.filter (fun w => w.id != v.id) } qid v.vote_type (-1)).votes ++ [v] } qid v.vote_type 1) y k = _
    rw [aCounterOf_bumpQ, aCounterOf_votes, aCounterOf_bumpQ, aCounterOf_votes]
  | none =>
    cases hva : v.answer_id with
    | some aid =>
      show aCounterOf (bumpA { bumpA { db with votes := db.votes.filter (fun w => w.id != v.id) } aid v.vote_type (-1) with votes := (bumpA { db with votes := db.votes.filter (fun w => w.id != v.id) } aid v.vote_type (-1)).votes ++ [v] } aid v.vote_type 1) y k = _
      rw [aCounterOf_bumpA, aCounterOf_votes, aCounterOf_bumpA, aCounterOf_votes,
        Option.map_map]
      cases ho : aCounterOf db y k with
      | none => rfl
      | some c =>
        simp only [Option.map_some', Function.comp_apply]
        congr 1
        by_cases hy : y = aid
        · rw [if_pos hy, if_pos hy]
          by_cases h1 : (v.vote_type == k) = true <;> simp [h1]
        · rw [if_neg hy, if_neg hy]
    | none => rfl

/-- C5: in every reachable state the stored `upvote_count`/`downvote_count`
of every question and answer equal the number of live votes of that kind on
it (`countsConsistent`); a kind change on an existing vote decrements the
target's counter for the old kind by 1 and increments the counter for the new
kind by 1 in the same operation; and deleting then re-adding an identical
vote restores all counters to their original values. -/
theorem C5_vote_counters (db : DB) (h : Reachable db) :
    countsConsistent db ∧
    (∀ v ∈ db.votes, ∀ qid0, v.question_id = some qid0 →
      ∀ t : VoteType, ¬ t = v.vote_type →
      qCounterOf (updateVoteType db v.id t) qid0 v.vote_type
          = (qCounterOf db qid0 v.vote_type).map (fun c => c - 1) ∧
      qCounterOf (updateVoteType db v.id t) qid0 t
          = (qCounterOf db qid0 t).map (fun c => c + 1)) ∧
    (∀ v ∈ db.votes, ∀ aid0, v.answer_id = some aid0 →
      ∀ t : VoteType, ¬ t = v.vote_type →
      aCounterOf (updateVoteType db v.id t) aid0 v.vote_type
          = (aCounterOf db aid0 v.vote_type).map (fun c => c - 1) ∧
      aCounterOf (updateVoteType db v.id t) aid0 t
          = (aCounterOf db aid0 t).map (fun c => c + 1)) ∧
    (∀ v ∈ db.votes,
      (∀ x k, qCounterOf (insertVote (deleteVote db v.id) v) x k = qCounterOf db x k) ∧
      (∀ y k, aCounterOf (insertVote (deleteVote db v.id) v) y k = aCounterOf db y k)) := by
  obtain ⟨hwf, -, hc⟩ := reachable_inv h
  refine ⟨hc, ?_, ?_, ?_⟩
  · intro v hv qid0 hvq t ht
    constructor
    · rw [qCounterOf_changeVote db v hwf.2.2.1 hv qid0 hvq t]
      cases qCounterOf db qid0 v.vote_type with
      | none => rfl
      | some c =>
        rw [Option.map_some', Option.map_some']
        apply congrArg
        beta_reduce
        have h1 : ¬ (t == v.vote_type) = true := fun hcon => ht (eq_of_beq hcon)
        rw [if_neg (show ¬ (qid0 = qid0 ∧ (t == v.vote_type) = true) from
            fun hcon => h1 hcon.2),
          if_pos (show qid0 = qid0 ∧ (v.vote_type == v.vote_type) = true from
            ⟨rfl, beq_self_eq_true v.vote_type⟩)]
    · rw [qCounterOf_changeVote db v hwf.2.2.1 hv qid0 hvq t]
      cases qCounterOf db qid0 t with
      | none => rfl
      | some c =>
        rw [Option.map_some', Option.map_some']
        apply congrArg
        beta_reduce
        have h1 : ¬ (v.vote_type == t) = true := fun hcon => ht (eq_of_beq hcon).symm
        rw [if_pos (show qid0 = qid0 ∧ (t == t) = true from ⟨rfl, beq_self_eq_true t⟩),
          if_neg (show ¬ (qid0 = qid0 ∧ (v.vote_type == t) = true) from
            fun hcon => h1 hcon.2)]
        omega
  · intro v hv aid0 hva t ht
    have hvqn : v.question_id = none := by
      cases hq : v.question_id with
      | none => rfl
      | some q =>
        exfalso
        have htc := hwf.2.2.2.1 v hv
        rw [hq, hva] at htc
        simp at htc
    constructor
    · rw [aCounterOf_changeVote db v hwf.2.2.1 hv hvqn aid0 hva t]
      cases aCounterOf db aid0 v.vote_type with
      | none => rfl
      | some c =>
        rw [Option.map_some', Option.map_some']
        apply congrArg
        beta_reduce
        have h1 : ¬ (t == v.vote_type) = true := fun hcon => ht (eq_of_beq hcon)
        rw [if_neg (show ¬ (aid0 = aid0 ∧ (t == v.vote_type) = true) from
            fun hcon => h1 hcon.2),
          if_pos (show aid0 = aid0 ∧ (v.vote_type == v.vote_type) = true from
            ⟨rfl, beq_self_eq_true v.vote_type⟩)]
    · rw [aCounterOf_changeVote db v hwf.2.2.1 hv hvqn aid0 hva t]
      cases aCounterOf db aid0 t with
      | none => rfl
      | some c =>
        rw [Option.map_some', Option.map_some']
        apply congrArg
        beta_reduce
        have h1 : ¬ (v.vote_type == t) = true := fun hcon => ht (eq_of_beq hcon).symm
        rw [if_pos (show aid0 = aid0 ∧ (t == t) = true from ⟨rfl, beq_self_eq_true t⟩),
          if_neg (show ¬ (aid0 = aid0 ∧ (v.vote_type == t) = true) from
            fun hcon => h1 hcon.2)]
        omega
  · intro v hv
    exact ⟨fun x k => qCounterOf_roundtrip db v hwf.2.2.1 hv x k,
      fun y k => aCounterOf_roundtrip db v hwf.2.2.1 hv y k⟩

theorem C5_vote_counters_witness :
    qCounterOf (insertVote (deleteVote exDBv 1) exV) 1 VoteType.upvote
      = qCounterOf exDBv 1 VoteType.upvote :=
  ((C5_vote_counters exDBv exDBv_reachable).2.2.2 exV (by decide)).1 1 VoteType.upvote

/-! ## C8: answer_count bookkeeping -/

theorem answerCountOf_map (db db' : DB) (f : Question → Question)
    (hq : db'.questions = db.questions.map f)
    (hf : ∀ q, (f q).id = q.id ∧ (f q).answer_count = q.answer_count) (x : Nat) :
    answerCountOf db' x = answerCountOf db x := by
  unfold answerCountOf
  rw [hq, find?_map_pres f _ (fun q => by rw [(hf q).1])]
  cases hfind : db.questions.find? (fun q => q.id == x) with
  | none => rfl
  | some q =>
    rw [Option.map_some', Option.map_some', Option.map_some']
    exact congrArg some (hf q).2

theorem answerCountOf_inc (db : DB) (t : Nat) (x : Nat) :
    answerCountOf (updQ db (fun q => q.id == t)
        (fun q => { q with answer_count := q.answer_count + 1 })) x
      = (answerCountOf db x).map (fun c => if x = t then c + 1 else c) := by
  unfold answerCountOf
  show ((db.questions.map (fun q => if q.id == t then { q with answer_count := q.answer_count + 1 } else q)).find? (fun q => q.id == x)).map (fun q => q.answer_count) = _
  rw [find?_map_pres _ _ (fun q => by
    by_cases h : (q.id == t) = true
    · rw [if_pos h]
    · rw [if_neg h])]
  cases hfind : db.questions.find? (fun q => q.id == x) with
  | none => rfl
  | some q =>
    have hqx : (q.id == x) = true := by simpa using List.find?_some hfind
    rw [Option.map_some', Option.map_some']
    apply congrArg
    beta_reduce
    by_cases h : (q.id == t) = true
    · have hx : x = t := by rw [← eq_of_beq hqx, eq_of_beq h]
      rw [if_pos h, if_pos hx]
    · have hx : ¬ x = t := fun hcon => h (by
        rw [eq_of_beq hqx, hcon]
        exact beq_self_eq_true t)
      rw [if_neg h, if_neg hx]

theorem answerCountOf_dec (db : DB) (t : Nat) (x : Nat) :
    answerCountOf (updQ db (fun q => q.id == t)
        (fun q => { q with answer_count := q.answer_count - 1 })) x
      = (answerCountOf db x).map (fun c => if x = t then c - 1 else c) := by
  unfold answerCountOf
  show ((db.questions.map (fun q => if q.id == t then { q with answer_count := q.answer_count - 1 } else q)).find? (fun q => q.id == x)).map (fun q => q.answer_count) = _
  rw [find?_map_pres _ _ (fun q => by
    by_cases h : (q.id == t) = true
    · rw [if_pos h]
    · rw [if_neg h])]
  cases hfind : db.questions.find? (fun q => q.id == x) with
  | none => rfl
  | some q =>
    have hqx : (q.id == x) = true := by simpa using List.find?_some hfind
    rw [Option.map_some', Option.map_some']
    apply congrArg
    beta_reduce
    by_cases h : (q.id == t) = true
    · have hx : x = t := by rw [← eq_of_beq hqx, eq_of_beq h]
      rw [if_pos h, if_pos hx]
    · have hx : ¬ x = t := fun hcon => h (by
        rw [eq_of_beq hqx, hcon]
        exact beq_self_eq_true t)
      rw [if_neg h, if_neg hx]

theorem answerCountOf_createAnswer (db : DB) (a0 : Answer) (x : Nat) :
    answerCountOf (createAnswer db a0) x
      = (answerCountOf db x).map (fun c => if x = a0.question_id then c + 1 else c) := by
  unfold createAnswer update_question_answer_count_insert
  rw [answerCountOf_inc]
  rfl

theorem answerCountOf_deleteAnswer (db : DB) (aid : Nat) (old : Answer)
    (hf : db.answers.find? (fun b => b.id == aid) = some old) (x : Nat) :
    answerCountOf (deleteAnswer db aid) x
      = (answerCountOf db x).map (fun c => if x = old.question_id then c - 1 else c) := by
  unfold deleteAnswer
  rw [hf]
  show answerCountOf (update_question_answer_count_delete (cascadeDeleteVotes { db with answers := db.answers.filter (fun b => b.id != aid) } (fun v => v.answer_id == some aid)) old) x = _
  unfold update_question_answer_count_delete
  rw [answerCountOf_dec]
  obtain ⟨-, ⟨f, hfq, hq⟩, -⟩ := cascade_frame
    { db with answers := db.answers.filter (fun b => b.id != aid) }
    (fun v => v.answer_id == some aid)
  rw [answerCountOf_map _ _ f hq (fun q => ⟨(hfq q).1, (hfq q).2.2.1⟩)]
  rfl

theorem answerCountOf_setAccepted (db : DB) (aid : Nat) (val : Bool) (x : Nat) :
    answerCountOf (updateAnswerAccepted db aid val) x = answerCountOf db x := by
  obtain ⟨-, ⟨f, hfq, hq⟩, -⟩ := acceptFrame_updateAnswerAccepted db aid val
  exact answerCountOf_map db _ f hq (fun q => ⟨(hfq q).1, (hfq q).2.2.2.2⟩) x

theorem answerCountOf_insertVote (db : DB) (v : Vote) (x : Nat) :
    answerCountOf (insertVote db v) x = answerCountOf db x := by
  obtain ⟨-, ⟨f, hfq, hq⟩, -⟩ :=
    counterFrame_uvc_insert { db with votes := db.votes ++ [v] } v
  exact answerCountOf_map _ _ f hq (fun q => ⟨(hfq q).1, (hfq q).2.2.1⟩) x

theorem answerCountOf_deleteVote (db : DB) (vid : Nat) (x : Nat) :
    answerCountOf (deleteVote db vid) x = answerCountOf db x := by
  unfold deleteVote
  cases hf : db.votes.find? (fun v => v.id == vid) with
  | none => rfl
  | some old =>
    obtain ⟨-, ⟨f, hfq, hq⟩, -⟩ := counterFrame_uvc_delete
      { db with votes := db.votes.filter (fun v => v.id != vid) } old
    exact answerCountOf_map _ _ f hq (fun q => ⟨(hfq q).1, (hfq q).2.2.1⟩) x

theorem answerCountOf_changeVote (db : DB) (vid : Nat) (t : VoteType) (x : Nat) :
    answerCountOf (updateVoteType db vid t) x = answerCountOf db x := by
  unfold updateVoteType
  cases hf : db.votes.find? (fun v => v.id == vid) with
  | none => rfl
  | some old =>
    obtain ⟨-, ⟨f, hfq, hq⟩, -⟩ := counterFrame_uvc_update
      (updV db (fun v => v.id == vid) (fun v => { v with vote_type := t })) old
      { old with vote_type := t }
    exact answerCountOf_map _ _ f hq (fun q => ⟨(hfq q).1, (hfq q).2.2.1⟩) x

/-- C8: the `update_question_answer_count` trigger increments the parent
question's `answer_count` by exactly 1 on answer insertion and decrements it
by exactly 1 on answer deletion, leaving every other question untouched; the
acceptance trigger and the vote operations never change any `answer_count`;
and creating three answers under a question and then deleting one of them
leaves the count two above its starting value (2, when it starts at the
column default 0). -/
theorem C8_answer_count (db : DB) :
    (∀ a0 : Answer,
      answerCountOf (createAnswer db a0) a0.question_id
          = (answerCountOf db a0.question_id).map (fun c => c + 1) ∧
      ∀ x, ¬ x = a0.question_id →
        answerCountOf (createAnswer db a0) x = answerCountOf db x) ∧
    (∀ aid old, db.answers.find? (fun b => b.id == aid) = some old →
      answerCountOf (deleteAnswer db aid) old.question_id
          = (answerCountOf db old.question_id).map (fun c => c - 1) ∧
      ∀ x, ¬ x = old.question_id →
        answerCountOf (deleteAnswer db aid) x = answerCountOf db x) ∧
    (∀ aid val x, answerCountOf (updateAnswerAccepted db aid val) x = answerCountOf db x) ∧
    (∀ v x, answerCountOf (insertVote db v) x = answerCountOf db x) ∧
    (∀ vid x, answerCountOf (deleteVote db vid) x = answerCountOf db x) ∧
    (∀ vid t x, answerCountOf (updateVoteType db vid t) x = answerCountOf db x) ∧
    (∀ a1 a2 a3 : Answer,
      a1.question_id = a2.question_id → a3.question_id = a2.question_id →
      db.answers.all (fun b => b.id != a2.id) = true → ¬ a1.id = a2.id →
      answerCountOf
          (deleteAnswer (createAnswer (createAnswer (createAnswer db a1) a2) a3) a2.id)
          a2.question_id
        = (answerCountOf db a2.question_id).map (fun c => c + 2)) := by
  refine ⟨?_, ?_, ?_, ?_, ?_, ?_, ?_⟩
  · intro a0
    constructor
    · rw [answerCountOf_createAnswer]
      cases answerCountOf db a0.question_id with
      | none => rfl
      | some c =>
        rw [Option.map_some', Option.map_some']
        apply congrArg
        beta_reduce
        rw [if_pos rfl]
    · intro x hx
      rw [answerCountOf_createAnswer]
      cases answerCountOf db x with
      | none => rfl
      | some c =>
        rw [Option.map_some']
        rw [if_neg hx]
  · intro aid old hf
    constructor
    · rw [answerCountOf_deleteAnswer db aid old hf]
      cases answerCountOf db old.question_id with
      | none => rfl
      | some c =>
        rw [Option.map_some', Option.map_some']
        apply congrArg
        beta_reduce
        rw [if_pos rfl]
    · intro x hx
      rw [answerCountOf_deleteAnswer db aid old hf]
      cases answerCountOf db x with
      | none => rfl
      | some c =>
        rw [Option.map_some']
        rw [if_neg hx]
  · intro aid val x
    exact answerCountOf_setAccepted db aid val x
  · intro v x
    exact answerCountOf_insertVote db v x
  · intro vid x
    exact answerCountOf_deleteVote db vid x
  · intro vid t x
    exact answerCountOf_changeVote db vid t x
  · intro a1 a2 a3 h12 h32 hall hne12
    have hfind : (createAnswer (createAnswer (createAnswer db a1) a2) a3).answers.find?
        (fun b => b.id == a2.id) = some a2 := by
      show (((db.answers ++ [a1]) ++ [a2]) ++ [a3]).find? (fun b => b.id == a2.id)
        = some a2
      rw [List.find?_append, List.find?_append, List.find?_append,
        show db.answers.find? (fun b => b.id == a2.id) = none from
          List.find?_eq_none.mpr (fun x hx hcon => by
            have hb := List.all_eq_true.mp hall x hx
            rw [eq_of_beq hcon] at hb
            simp at hb),
        show [a1].find? (fun b => b.id == a2.id) = none from
          List.find?_cons_of_neg _ (fun hcon => hne12 (eq_of_beq hcon)),
        show [a2].find? (fun b => b.id == a2.id) = some a2 from
          List.find?_cons_of_pos _ (beq_self_eq_true a2.id)]
      rfl
    rw [answerCountOf_deleteAnswer _ a2.id a2 hfind,
      answerCountOf_createAnswer, answerCountOf_createAnswer, answerCountOf_createAnswer]
    cases answerCountOf db a2.question_id with
    | none => rfl
    | some c =>
      rw [Option.map_some', Option.map_some', Option.map_some', Option.map_some',
        Option.map_some']
      apply congrArg
      beta_reduce
      rw [if_pos (show a2.question_id = a1.question_id from h12.symm),
        if_pos (show a2.question_id = a3.question_id from h32.symm),
        if_pos rfl, if_pos rfl]
      omega

/-! ## C4, C7: the accepted-answer state machine -/

theorem updQ_flag_true (db0 : DB) (t : Nat) :
    ∀ q ∈ (updQ db0 (fun q => q.id == t)
        (fun q => { q with has_accepted_answer := true })).questions,
      q.id = t → q.has_accepted_answer = true := by
  intro q hq hqid
  obtain ⟨q2, hq2, rfl⟩ := List.mem_map.mp hq
  beta_reduce at hqid ⊢
  by_cases hp : (q2.id == t) = true
  · rw [if_pos hp]
  · rw [if_neg hp] at hqid ⊢
    exact absurd (by rw [hqid]; exact beq_self_eq_true t) hp

theorem uqas_questions_accept (db : DB) (old new : Answer)
    (h1 : (old.is_accepted != new.is_accepted) = true) (h2 : new.is_accepted = true) :
    ∀ q ∈ (update_question_accepted_status db old new).questions,
      q.id = new.question_id → q.has_accepted_answer = true := by
  unfold update_question_accepted_status
  rw [if_pos h1, if_pos h2]
  exact updQ_flag_true _ new.question_id

theorem flag_after_accept (db : DB) (aid : Nat) (old : Answer)
    (hf : db.answers.find? (fun b => b.id == aid) = some old)
    (hold : old.is_accepted = false) :
    ∀ q ∈ (updateAnswerAccepted db aid true).questions,
      q.id = old.question_id → q.has_accepted_answer = true := by
  unfold updateAnswerAccepted
  rw [hf]
  exact uqas_questions_accept _ old { old with is_accepted := true }
    (by rw [hold]; rfl) rfl

theorem find?_answers_after_accept (db : DB) (aid : Nat) (old : Answer)
    (hf : db.answers.find? (fun b => b.id == aid) = some old)
    (hold : old.is_accepted = false) (x : Nat) :
    (updateAnswerAccepted db aid true).answers.find? (fun b => b.id == x)
      = (db.answers.find? (fun b => b.id == x)).map
          ((fun b => if b.question_id == old.question_id && b.id != old.id then { b with is_accepted := false } else b) ∘ (fun b => if b.id == aid then { b with is_accepted := true } else b)) := by
  rw [updateAnswerAccepted_answers db aid true old hf,
    if_pos (show ((old.is_accepted != true) && true) = true by rw [hold]; rfl),
    find?_map_pres _ _ (fun b => by
      by_cases h : (b.question_id == old.question_id && b.id != old.id) = true
      · rw [if_pos h]
      · rw [if_neg h]),
    find?_map_pres _ _ (fun b => by
      by_cases h : (b.id == aid) = true
      · rw [if_pos h]
      · rw [if_neg h]),
    Option.map_map]

theorem accept_sets_unique (db : DB) (aid : Nat) (old : Answer)
    (hf : db.answers.find? (fun b => b.id == aid) = some old)
    (hold : old.is_accepted = false) :
    ∀ b ∈ (updateAnswerAccepted db aid true).answers,
      b.question_id = old.question_id → (b.is_accepted = true ↔ b.id = aid) := by
  have hid : old.id = aid := by simpa using List.find?_some hf
  have hmem : old ∈ db.answers := List.mem_of_find?_eq_some hf
  rw [updateAnswerAccepted_answers db aid true old hf,
    if_pos (show ((old.is_accepted != true) && true) = true by rw [hold]; rfl)]
  intro b hb hbq
  rw [List.map_map] at hb
  obtain ⟨y, hy, rfl⟩ := List.mem_map.mp hb
  simp only [Function.comp_apply] at hbq ⊢
  by_cases h1 : (y.id == aid) = true
  · rw [if_pos h1] at hbq ⊢
    have hcne : ¬ ((({ y with is_accepted := true } : Answer).question_id == old.question_id && ({ y with is_accepted := true } : Answer).id != old.id) = true) := by
      intro hcon
      have h2 := Bool.and_elim_right hcon
      simp at h2
      exact h2 (by rw [eq_of_beq h1, hid])
    rw [if_neg hcne]
    constructor
    · intro _
      exact eq_of_beq h1
    · intro _
      rfl
  · rw [if_neg h1] at hbq ⊢
    by_cases h2 : (y.question_id == old.question_id && y.id != old.id) = true
    · rw [if_pos h2]
      constructor
      · intro hcon
        exact absurd hcon (by simp)
      · intro hcon
        exact absurd (show (y.id == aid) = true from by
          rw [show y.id = aid from hcon]
          exact beq_self_eq_true aid) h1
    · rw [if_neg h2] at hbq ⊢
      exfalso
      apply h1
      have hyid : y.id = old.id := by
        by_contra hne2
        apply h2
        rw [show (y.question_id == old.question_id) = true from by
            rw [hbq]; exact beq_self_eq_true _,
          show (y.id != old.id) = true from by simp [hne2]]
        rfl
      rw [hyid, hid]
      exact beq_self_eq_true aid

/-- C4: the accept transition on an unaccepted answer `a` forces every other
answer of `a`'s question to `is_accepted = false` (after it, an answer of
that question is accepted iff it is `a`), sets the question's
`has_accepted_answer` flag to `true`, and therefore accepting `a` and then a
second answer `b` of the same question leaves exactly `a` unaccepted and `b`
accepted, with the flag still `true` (last accept wins). -/
theorem C4_accept_clears_siblings (db : DB) (a : Answer) (hwf : wf db)
    (ha : a ∈ db.answers) (hacc : a.is_accepted = false) :
    (∀ b ∈ (updateAnswerAccepted db a.id true).answers,
        b.question_id = a.question_id → (b.is_accepted = true ↔ b.id = a.id)) ∧
    (∀ q ∈ (updateAnswerAccepted db a.id true).questions,
        q.id = a.question_id → q.has_accepted_answer = true) ∧
    (∀ b ∈ db.answers, b.question_id = a.question_id → ¬ b.id = a.id →
      acceptedOf (updateAnswerAccepted (updateAnswerAccepted db a.id true) b.id true) a.id
          = some false ∧
      acceptedOf (updateAnswerAccepted (updateAnswerAccepted db a.id true) b.id true) b.id
          = some true ∧
      (∀ q ∈ (updateAnswerAccepted (updateAnswerAccepted db a.id true) b.id true).questions,
        q.id = a.question_id → q.has_accepted_answer = true)) := by
  have hfa : db.answers.find? (fun b => b.id == a.id) = some a :=
    find?_key_of_nodup (fun b => b.id) db.answers hwf.2.1 a ha
  refine ⟨accept_sets_unique db a.id a hfa hacc,
    flag_after_accept db a.id a hfa hacc, ?_⟩
  intro b hb hq hne
  have hfb : db.answers.find? (fun r => r.id == b.id) = some b :=
    find?_key_of_nodup (fun r => r.id) db.answers hwf.2.1 b hb
  have hfb' : (updateAnswerAccepted db a.id true).answers.find? (fun r => r.id == b.id)
      = some { b with is_accepted := false } := by
    rw [find?_answers_after_accept db a.id a hfa hacc b.id, hfb, Option.map_some']
    apply congrArg
    simp only [Function.comp_apply]
    rw [if_neg (show ¬ ((b.id == a.id) = true) from fun hcon => hne (eq_of_beq hcon)),
      if_pos (show (b.question_id == a.question_id && b.id != a.id) = true from by
        rw [show (b.question_id == a.question_id) = true from by
            rw [hq]; exact beq_self_eq_true _,
          show (b.id != a.id) = true from by simp [hne]]
        rfl)]
  refine ⟨?_, ?_, ?_⟩
  · unfold acceptedOf
    rw [find?_answers_after_accept (updateAnswerAccepted db a.id true) b.id
        { b with is_accepted := false } hfb' rfl a.id,
      find?_answers_after_accept db a.id a hfa hacc a.id, hfa,
      Option.map_some', Option.map_some', Option.map_some']
    apply congrArg
    simp [Function.comp, hq, Ne.symm hne]
  · unfold acceptedOf
    rw [find?_answers_after_accept (updateAnswerAccepted db a.id true) b.id
        { b with is_accepted := false } hfb' rfl b.id,
      hfb', Option.map_some', Option.map_some']
    apply congrArg
    simp [Function.comp]
  · intro q hq2 hqid
    exact flag_after_accept (updateAnswerAccepted db a.id true) b.id
      { b with is_accepted := false } hfb' rfl q hq2
      (by rw [hqid]; exact hq.symm)

theorem unaccept_core (db : DB) (aid : Nat) (old : Answer) (hwf : wf db)
    (hf : db.answers.find? (fun b => b.id == aid) = some old)
    (hold : old.is_accepted = true) :
    (updateAnswerAccepted db aid false).questions
      = if db.answers.any (fun b => b.question_id == old.question_id && b.is_accepted && b.id != old.id) then db.questions
        else db.questions.map (fun q => if q.id == old.question_id then { q with has_accepted_answer := false } else q) := by
  have hid : old.id = aid := by simpa using List.find?_some hf
  have hmem : old ∈ db.answers := List.mem_of_find?_eq_some hf
  unfold updateAnswerAccepted
  rw [hf]
  show (update_question_accepted_status (updA db (fun b => b.id == aid) (fun b => { b with is_accepted := false })) old { old with is_accepted := false }).questions = _
  unfold update_question_accepted_status
  rw [if_pos (show (old.is_accepted != ({ old with is_accepted := false } : Answer).is_accepted) = true by rw [hold]; rfl),
    if_neg (show ¬ (({ old with is_accepted := false } : Answer).is_accepted = true) from
      fun hcon => Bool.false_ne_true hcon)]
  unfold recheckAccepted
  have hany : (updA db (fun b => b.id == aid) (fun b => { b with is_accepted := false })).answers.any (fun b => b.question_id == ({ old with is_accepted := false } : Answer).question_id && b.is_accepted && b.id != ({ old with is_accepted := false } : Answer).id)
      = db.answers.any (fun b => b.question_id == old.question_id && b.is_accepted && b.id != old.id) := by
    rw [updA_answers, List.any_map]
    apply any_congr_on
    intro y hy
    by_cases h1 : (y.id == aid) = true
    · have hyold : y = old := nodup_key_inj (fun b => b.id) db.answers hwf.2.1 y hy old hmem
        (by show y.id = old.id; rw [eq_of_beq h1, hid])
      simp only [Function.comp_apply]
      rw [hyold, if_pos (show (old.id == aid) = true from by
        rw [hid]; exact beq_self_eq_true aid)]
      simp
    · simp only [Function.comp_apply]
      rw [if_neg h1]
  cases hchk : db.answers.any (fun b => b.question_id == old.question_id && b.is_accepted && b.id != old.id) with
  | true =>
    rw [if_pos (hany.trans hchk), if_pos rfl]
    rfl
  | false =>
    have hcc := hany.trans hchk
    rw [if_neg (show ¬ _ = true from by rw [hcc]; exact Bool.false_ne_true),
      if_neg Bool.false_ne_true]
    rfl

/-- C7: the unaccept transition (true to false) on an accepted answer `a` of a
question whose flag is set re-runs the existence check "some other answer of
the question is accepted" and leaves the question's `has_accepted_answer`
equal to that check's result — in particular, unaccepting the sole accepted
answer sets the flag to `false`. -/
theorem C7_unaccept_recheck (db : DB) (a : Answer) (hwf : wf db)
    (ha : a ∈ db.answers) (hacc : a.is_accepted = true)
    (hflag : ∀ q ∈ db.questions, q.id = a.question_id → q.has_accepted_answer = true) :
    ∀ q ∈ (updateAnswerAccepted db a.id false).questions, q.id = a.question_id →
      q.has_accepted_answer
        = db.answers.any (fun b => b.question_id == a.question_id && b.is_accepted && b.id != a.id) := by
  have hfa : db.answers.find? (fun b => b.id == a.id) = some a :=
    find?_key_of_nodup (fun b => b.id) db.answers hwf.2.1 a ha
  rw [unaccept_core db a.id a hwf hfa hacc]
  cases hchk : db.answers.any (fun b => b.question_id == a.question_id && b.is_accepted && b.id != a.id) with
  | true =>
    rw [if_pos rfl]
    intro q hq hqid
    exact hflag q hq hqid
  | false =>
    rw [if_neg Bool.false_ne_true]
    intro q hq hqid
    obtain ⟨q2, hq2, rfl⟩ := List.mem_map.mp hq
    by_cases hp : (q2.id == a.question_id) = true
    · rw [if_pos hp]
    · rw [if_neg hp] at hqid ⊢
      exact absurd (by rw [hqid]; exact beq_self_eq_true _) hp

/-! ## Witness states for the acceptance claims -/

/-- A second answer under question 1, author 30. -/
def exA2 : Answer :=
  { id := 2, question_id := 1, user_id := 30, upvote_count := 0,
    downvote_count := 0, is_accepted := false }

/-- Question 1 with two answers, none accepted. -/
def exDBqa2 : DB := createAnswer exDBqa exA2

/-- The accepted answer row of `exDBacc`. -/
def exAacc : Answer :=
  { id := 1, question_id := 1, user_id := 20, upvote_count := 0,
    downvote_count := 0, is_accepted := true }

/-- The question row after unaccepting the sole accepted answer of `exDBacc`. -/
def exQunacc : Question :=
  { id := 1, user_id := 10, upvote_count := 0, downvote_count := 0,
    answer_count := 1, has_accepted_answer := false }

theorem C4_accept_clears_siblings_witness :
    acceptedOf (updateAnswerAccepted (updateAnswerAccepted exDBqa2 1 true) 2 true) 1
        = some false ∧
    acceptedOf (updateAnswerAccepted (updateAnswerAccepted exDBqa2 1 true) 2 true) 2
        = some true := by
  have h := (C4_accept_clears_siblings exDBqa2 exA
    ⟨by decide, by decide, by decide, by decide, by decide, by decide, by decide⟩
    (by decide) (by decide)).2.2 exA2 (by decide) (by decide) (by decide)
  exact ⟨h.1, h.2.1⟩

theorem C7_unaccept_recheck_witness :
    exQunacc.has_accepted_answer
      = exDBacc.answers.any (fun b => b.question_id == exAacc.question_id && b.is_accepted && b.id != exAacc.id) :=
  C7_unaccept_recheck exDBacc exAacc
    ⟨by decide, by decide, by decide, by decide, by decide, by decide, by decide⟩
    (by decide) rfl (by decide) exQunacc (by decide) (by decide)

end Stackit
